import Mathlib

/-!
Verification development for the bunpaas-server repository.

Each JavaScript module relevant to the verified claims is shallowly embedded
as executable Lean definitions: pure functions become Lean functions,
module-level mutable state becomes explicit state records with state-passing
operations, platform calls (filesystem, bcrypt, JSON body parsing by the
runtime) become explicit oracle parameters or concrete models.  Machine
numbers in this code base are small naturals (statuses, timeouts, list caps),
modelled as `Nat`/`Int`.
-/

namespace BunPaaS

/-! ## JavaScript-flavoured utilities shared by the embeddings -/

/-- Kernel-evaluable `String.startsWith` (structural recursion on the
character lists). -/
def strStartsWith (s pre : String) : Bool :=
  pre.toList.isPrefixOf s.toList

/-- Kernel-evaluable `String.endsWith`. -/
def strEndsWith (s suf : String) : Bool :=
  suf.toList.reverse.isPrefixOf s.toList.reverse

/-- Kernel-evaluable `String.dropRight`. -/
def strDropRight (s : String) (n : Nat) : String :=
  String.mk (s.toList.take (s.toList.length - n))

/-- Kernel-evaluable ASCII `Char.toLower` (the header names and MIME
extensions in this code base are ASCII). -/
def charToLower (c : Char) : Char :=
  if 65 ≤ c.toNat ∧ c.toNat ≤ 90 then Char.ofNat (c.toNat + 32) else c

/-- Kernel-evaluable ASCII `String.toLower`. -/
def strToLower (s : String) : String :=
  String.mk (s.toList.map charToLower)

/-- Model of the JavaScript `x || d` idiom on an optional string: `null`,
`undefined` and the empty string are falsy and select the default. -/
def jsOrStr (x : Option String) (d : String) : String :=
  match x with
  | none => d
  | some s => if s = "" then d else s

/-- Model of the JavaScript `x || d` idiom on an optional number: absent and
`0` are falsy and select the default. -/
def jsOrNat (x : Option Nat) (d : Nat) : Nat :=
  match x with
  | none => d
  | some n => if n = 0 then d else n

/-- Case-preserving association-list lookup (JS object property access). -/
def lookupAssoc {α : Type} : List (String × α) → String → Option α
  | [], _ => none
  | p :: t, k => if p.1 = k then some p.2 else lookupAssoc t k

/-- Header maps: the Fetch `Headers` class lower-cases names; we store names
already lower-cased.  `Headers.set` replaces any existing entry. -/
def headerSet (hs : List (String × String)) (k v : String) : List (String × String) :=
  (hs.filter (fun p => p.1 ≠ strToLower k)) ++ [(strToLower k, v)]

/-- `Headers.get`, on the lower-cased representation. -/
def headerGet (hs : List (String × String)) (k : String) : Option String :=
  lookupAssoc hs (strToLower k)

/-! ## Response model

A `Response` as the routing code observes it: a status, a header map, and a
body.  Static-file responses wrap the file itself, so the body constructor
for files records which file path is being served. -/

inductive RespBody where
  | empty
  | text (s : String)
  | file (path : String)
  | bytes (data : List Nat)
  | stream
  deriving DecidableEq, Repr

structure Resp where
  status : Nat
  headers : List (String × String)
  body : RespBody
  deriving DecidableEq, Repr

/-- `new Response(message, \x7bstatus\x7d)`. -/
def mkTextResp (status : Nat) (msg : String) : Resp :=
  { status := status, headers := [], body := .text msg }

/-- `addHeader` from router.js: copy the response with one header set. -/
def addHeader (r : Resp) (k v : String) : Resp :=
  { r with headers := headerSet r.headers k v }

end BunPaaS

namespace BunPaaS.Static

/-! ## src/lib/static.js

The filesystem is modelled as an association list from absolute path strings
to entry kinds.  `Bun.file(p).exists()` is true exactly for regular files
(the repository's own comment in functions.js: "Bun.file().exists() returns
false for directories"), and static.js additionally guards with an
`isDirectory` stat check, so `tryServeFile` serves exactly the paths mapped
to `.file`. -/

inductive FsEntry where
  | file
  | dir
  deriving DecidableEq, Repr

def FsState := List (String × FsEntry)

def lookupFs (fs : FsState) (p : String) : Option FsEntry :=
  BunPaaS.lookupAssoc fs p

/-- Model of Node `path.join` restricted to the shapes this server builds:
both components are non-empty and contain no `.`/`..` segments, so joining
is concatenation with exactly one `/` separator. -/
def pathJoin (a b : String) : String :=
  (if BunPaaS.strEndsWith a "/" then BunPaaS.strDropRight a 1 else a) ++
    (if BunPaaS.strStartsWith b "/" then b else "/" ++ b)

/-- Node `path.extname` on the final path segment: the substring from the
last `.` to the end, unless that `.` is the segment's first character. -/
def extnameList (base : List Char) : List Char :=
  let afterDotRev := base.reverse.takeWhile (fun c => c ≠ '.')
  if afterDotRev.length = base.length then []
  else if afterDotRev.length + 1 = base.length ∧ base.headD ' ' = '.' then []
  else '.' :: afterDotRev.reverse

def extname (p : String) : String :=
  let base := (p.toList.reverse.takeWhile (fun c => c ≠ '/')).reverse
  String.mk (extnameList base)

/-- The `BLOCKED_PATTERNS` regex list of static.js, clause for clause.  Note
that `/site.json`, `/package.json` and `/.bunpaas` are anchored at both ends
(`^...$`) while the remaining patterns are prefix-anchored only. -/
def isBlockedPath (reqPath : String) : Bool :=
  BunPaaS.strStartsWith reqPath "/_" ||
  reqPath = "/site.json" ||
  reqPath = "/package.json" ||
  BunPaaS.strStartsWith reqPath "/node_modules" ||
  reqPath = "/.bunpaas" ||
  BunPaaS.strStartsWith reqPath "/.git" ||
  BunPaaS.strStartsWith reqPath "/.env"

/-- The `MIME_TYPES` table lookup with the `application/octet-stream`
default.  Only the entries exercised by the claims are listed; the table is
a finite map in the source and its exact contents are not claim-relevant. -/
def mimeType (ext : String) : String :=
  match BunPaaS.lookupAssoc
      [(".html", "text/html"), (".css", "text/css"), (".js", "text/javascript"),
       (".json", "application/json"), (".png", "image/png"), (".txt", "text/plain")]
      (BunPaaS.strToLower ext) with
  | some t => t
  | none => "application/octet-stream"

/-- `tryServeFile`: serve the path when it exists and is not a directory. -/
def tryServeFile (fs : FsState) (filePath : String) (cacheControl : String) :
    Option BunPaaS.Resp :=
  match lookupFs fs filePath with
  | some .file =>
    some { status := 200,
           headers := [("content-type", mimeType (extname filePath)),
                       ("cache-control", cacheControl)],
           body := .file filePath }
  | _ => none

/-- `serveStatic(ctx)`, over the filesystem model.  `cacheControlOpt` is
`ctx.siteConfig?.cacheControl`. -/
def serveStatic (fs : FsState) (sitePath reqPath : String)
    (cacheControlOpt : Option String) : Option BunPaaS.Resp :=
  let cacheControl := BunPaaS.jsOrStr cacheControlOpt "public, max-age=3600"
  if isBlockedPath reqPath then none
  else
    let filePath := pathJoin sitePath reqPath
    match tryServeFile fs filePath cacheControl with
    | some r => some r
    | none =>
      let indexPath := pathJoin filePath "index.html"
      match tryServeFile fs indexPath cacheControl with
      | some r => some r
      | none =>
        if ¬ BunPaaS.strEndsWith reqPath "/" ∧ extname reqPath = "" then
          let prettyIndexPath := pathJoin (pathJoin sitePath reqPath) "index.html"
          match tryServeFile fs prettyIndexPath cacheControl with
          | some r => some r
          | none =>
            let htmlPath := pathJoin sitePath (reqPath ++ ".html")
            tryServeFile fs htmlPath cacheControl
        else none

/-- `serveError(sitePath, status, defaultMessage)`. -/
def serveError (fs : FsState) (sitePath : String) (status : Nat)
    (defaultMessage : String) : BunPaaS.Resp :=
  let errorFile := pathJoin sitePath (toString status ++ ".html")
  match lookupFs fs errorFile with
  | some .file =>
    { status := status, headers := [("content-type", "text/html")],
      body := .file errorFile }
  | _ => { status := status, headers := [], body := .text defaultMessage }

/-- The blocked-path set exactly as claim C1 words it: prefix `/_`, exact
`/site.json` and `/package.json`, and prefixes `/node_modules`, `/.bunpaas`,
`/.git`, `/.env`. -/
def claimedBlockedSet (p : String) : Bool :=
  BunPaaS.strStartsWith p "/_" ||
  p = "/site.json" ||
  p = "/package.json" ||
  BunPaaS.strStartsWith p "/node_modules" ||
  BunPaaS.strStartsWith p "/.bunpaas" ||
  BunPaaS.strStartsWith p "/.git" ||
  BunPaaS.strStartsWith p "/.env"

/-- The blocked-path set amended so that `/.bunpaas` is an exact match, as
the anchored regex `/^\/\.bunpaas$/` in the source requires. -/
def amendedBlockedSet (p : String) : Bool :=
  BunPaaS.strStartsWith p "/_" ||
  p = "/site.json" ||
  p = "/package.json" ||
  BunPaaS.strStartsWith p "/node_modules" ||
  p = "/.bunpaas" ||
  BunPaaS.strStartsWith p "/.git" ||
  BunPaaS.strStartsWith p "/.env"

end BunPaaS.Static

namespace BunPaaS

open BunPaaS.Static in
/-- Claim C1, as stated, is false: the claim's blocked-path set includes
every path beginning with `/.bunpaas`, but the source regex
`/^\/\.bunpaas$/` is anchored at both ends, so `/.bunpaasx` is not blocked
and a file at that path under the deployment root is served. -/
theorem C1_counterexample :
    claimedBlockedSet "/.bunpaasx" = true ∧
    serveStatic [("/site/.bunpaasx", FsEntry.file)] "/site" "/.bunpaasx" none ≠ none := by
  decide

open BunPaaS.Static in
/-- Claim C1 (amended: `/.bunpaas` blocks only the exact path, per the
anchored regex): every request path in the amended blocked set yields `null`
from `serveStatic` for every filesystem state, even when a file exists at
that path under the deployment root. -/
theorem C1_blocked_never_served (fs : FsState) (sitePath reqPath : String)
    (cc : Option String) (h : amendedBlockedSet reqPath = true) :
    serveStatic fs sitePath reqPath cc = none := by
  have hb : isBlockedPath reqPath = true := h
  simp [serveStatic, hb]

open BunPaaS.Static in
/-- Witness for `C1_blocked_never_served` at the blocked path `/.env`, with
a file present at that path on disk. -/
theorem C1_blocked_never_served_witness :
    serveStatic [("/site/.env", FsEntry.file)] "/site" "/.env" none = none :=
  C1_blocked_never_served [("/site/.env", FsEntry.file)] "/site" "/.env" none (by decide)

open BunPaaS.Static in
/-- Claim C2, as stated, is false: with both `/site/about.html` and
`/site/about/index.html` present, `serveStatic` serves the directory index
`/site/about/index.html` (tried at the second step, before the pretty-URL
`.html` candidate), not `/site/about.html`. -/
theorem C2_counterexample :
    lookupFs [("/site/about", FsEntry.dir), ("/site/about/index.html", FsEntry.file),
              ("/site/about.html", FsEntry.file)] "/site/about.html" = some FsEntry.file ∧
    lookupFs [("/site/about", FsEntry.dir), ("/site/about/index.html", FsEntry.file),
              ("/site/about.html", FsEntry.file)] "/site/about/index.html" = some FsEntry.file ∧
    (serveStatic [("/site/about", FsEntry.dir), ("/site/about/index.html", FsEntry.file),
                  ("/site/about.html", FsEntry.file)] "/site" "/about" none).map Resp.body =
      some (RespBody.file "/site/about/index.html") := by
  decide

open BunPaaS.Static in
/-- Claim C2 (amended, matching the source's resolution order): an exact
file at `root+path` wins over everything, and the directory index
`root+path+"/index.html"` beats the pretty-URL file `root+path+".html"`:
whenever the exact candidate is not a file and both pretty candidates exist,
`serveStatic` serves `root+path+"/index.html"`. -/
theorem C2_resolution_precedence (fs : FsState) (root p : String) (cc : Option String) :
    (isBlockedPath p = false →
      lookupFs fs (pathJoin root p) = some FsEntry.file →
      (serveStatic fs root p cc).map Resp.body = some (RespBody.file (pathJoin root p))) ∧
    (isBlockedPath p = false →
      lookupFs fs (pathJoin root p) ≠ some FsEntry.file →
      lookupFs fs (pathJoin (pathJoin root p) "index.html") = some FsEntry.file →
      lookupFs fs (pathJoin root (p ++ ".html")) = some FsEntry.file →
      (serveStatic fs root p cc).map Resp.body =
        some (RespBody.file (pathJoin (pathJoin root p) "index.html"))) := by
  constructor
  · intro hb hf
    simp [serveStatic, hb, tryServeFile, hf]
  · intro hb hf hi _hh
    have hnone : tryServeFile fs (pathJoin root p) (jsOrStr cc "public, max-age=3600") = none := by
      unfold tryServeFile
      rcases hl : lookupFs fs (pathJoin root p) with _ | e
      · rfl
      · cases e
        · exact absurd hl hf
        · rfl
    simp [serveStatic, hb, hnone, tryServeFile, hi]

open BunPaaS.Static in
/-- Witness for `C2_resolution_precedence`: with an exact-file miss and both
pretty candidates present, the directory index is served. -/
theorem C2_resolution_precedence_witness :
    (serveStatic [("/s/a", FsEntry.dir), ("/s/a/index.html", FsEntry.file),
                  ("/s/a.html", FsEntry.file)] "/s" "/a" none).map Resp.body =
      some (RespBody.file (pathJoin (pathJoin "/s" "/a") "index.html")) :=
  (C2_resolution_precedence [("/s/a", FsEntry.dir), ("/s/a/index.html", FsEntry.file),
      ("/s/a.html", FsEntry.file)] "/s" "/a" none).2
    (by decide) (by decide) (by decide) (by decide)

end BunPaaS

namespace BunPaaS.Redirects

/-! ## src/lib/redirects.js

`loadRedirects` parses the tenant's `_redirects` file content;
`matchRedirects` is the rule loop of `handleRedirects`.  JavaScript string
primitives (`trim`, `split(/\s+/)`, `parseInt`, `String.prototype.replace`
with a string pattern, including `$`-substitution in the replacement) are
modelled character-list-exactly. -/

structure RedirectRule where
  fromPath : String
  toUrl : String
  status : Int
  deriving DecidableEq, Repr

/-- The redirect value `Response.redirect(destination, status)` carries. -/
structure Redirect where
  location : String
  status : Int
  deriving DecidableEq, Repr

def isWsChar (c : Char) : Bool :=
  c = ' ' || c = '\t' || c = '\r' || c = '\n'

def isDigitChar (c : Char) : Bool :=
  48 ≤ c.toNat && c.toNat ≤ 57

/-- `content.split("\n")`. -/
def splitOnNl : List Char → List (List Char)
  | [] => [[]]
  | x :: xs =>
    let r := splitOnNl xs
    if x = '\n' then [] :: r
    else
      match r with
      | [] => [[x]]
      | h :: t => (x :: h) :: t

/-- JS `String.prototype.trim` (over the whitespace occurring in rule files). -/
def trimList (cs : List Char) : List Char :=
  ((cs.dropWhile isWsChar).reverse.dropWhile isWsChar).reverse

/-- Split into maximal whitespace-free chunks; on a trimmed string this is
exactly JS `split(/\s+/)`. -/
def splitWsChunks : List Char → List (List Char)
  | [] => [[]]
  | x :: xs =>
    let r := splitWsChunks xs
    if isWsChar x then [] :: r
    else
      match r with
      | [] => [[x]]
      | h :: t => (x :: h) :: t

def splitWs (cs : List Char) : List (List Char) :=
  (splitWsChunks cs).filter (fun w => w ≠ [])

def digitsToNat (ds : List Char) : Nat :=
  ds.foldl (fun a c => a * 10 + (c.toNat - 48)) 0

/-- JS `parseInt` in base 10 on a whitespace-free token: optional sign, then
leading digits; `none` models `NaN`. -/
def jsParseInt (s : String) : Option Int :=
  let step : List Char → Int × List Char := fun cs =>
    match cs with
    | '-' :: r => (-1, r)
    | '+' :: r => (1, r)
    | r => (1, r)
  let (sign, rest) := step s.toList
  let ds := rest.takeWhile isDigitChar
  if ds.isEmpty then none
  else some (sign * (digitsToNat ds : Int))

/-- `parseInt(statusStr) || 301`: missing third field, `NaN`, and `0` all
fall back to `301`. -/
def parseStatusField (statusStr : Option String) : Int :=
  match statusStr with
  | none => 301
  | some s =>
    match jsParseInt s with
    | none => 301
    | some n => if n = 0 then 301 else n

/-- One line of the `_redirects` file: skip blank and `#` lines and lines
with fewer than two whitespace-separated fields. -/
def parseLine (line : List Char) : Option RedirectRule :=
  let trimmed := trimList line
  if trimmed = [] then none
  else if trimmed.headD ' ' = '#' then none
  else
    let parts := splitWs trimmed
    if parts.length < 2 then none
    else
      some { fromPath := String.mk (parts.headD []),
             toUrl := String.mk ((parts.drop 1).headD []),
             status := parseStatusField ((parts.get? 2).map String.mk) }

/-- `loadRedirects` on the file content (the missing-file case yields the
empty rule list in the caller). -/
def loadRedirects (content : String) : List RedirectRule :=
  (splitOnNl content.toList).filterMap parseLine

/-- First index at which `pat` occurs in `cs`, as JS `indexOf`. -/
def findSubAux : List Char → List Char → Nat → Option Nat
  | [], pat, i => if pat = [] then some i else none
  | c :: cs, pat, i =>
    if pat.isPrefixOf (c :: cs) then some i else findSubAux cs pat (i + 1)

def backquoteChar : Char := Char.ofNat 96

def squoteChar : Char := Char.ofNat 39

/-- JS `$`-substitution applied to the replacement string of
`String.prototype.replace`: `$$` is a literal dollar, `$&` the matched
text, a dollar-backquote the text before the match, a dollar-quote the text
after it; anything else is literal. -/
def substDollars (matched before after : List Char) : List Char → List Char
  | [] => []
  | ['$'] => ['$']
  | '$' :: '$' :: rest => '$' :: substDollars matched before after rest
  | '$' :: '&' :: rest => matched ++ substDollars matched before after rest
  | '$' :: c :: rest =>
    if c = backquoteChar then before ++ substDollars matched before after rest
    else if c = squoteChar then after ++ substDollars matched before after rest
    else '$' :: substDollars matched before after (c :: rest)
  | c :: rest => c :: substDollars matched before after rest

/-- JS `s.replace(pat, repl)` with a plain-string pattern: replaces only the
first occurrence, processing `$`-patterns in the replacement. -/
def jsReplaceFirst (s pat repl : String) : String :=
  let cs := s.toList
  let p := pat.toList
  match findSubAux cs p 0 with
  | none => s
  | some i =>
    String.mk (cs.take i ++
      substDollars p (cs.take i) (cs.drop (i + p.length)) repl.toList ++
      cs.drop (i + p.length))

/-- The splat: `reqPath.slice(prefix.length + 1)`. -/
def splatOf (reqPath pre : String) : String :=
  String.mk (reqPath.toList.drop (pre.toList.length + 1))

/-- The rule loop of `handleRedirects`, first match wins. -/
def matchRedirects : List RedirectRule → String → Option Redirect
  | [], _ => none
  | r :: rest, reqPath =>
    if r.fromPath = reqPath then some { location := r.toUrl, status := r.status }
    else if BunPaaS.strEndsWith r.fromPath "/*" then
      let pre := BunPaaS.strDropRight r.fromPath 2
      if BunPaaS.strStartsWith reqPath (pre ++ "/") || reqPath = pre then
        some { location := jsReplaceFirst r.toUrl ":splat" (splatOf reqPath pre),
               status := r.status }
      else matchRedirects rest reqPath
    else matchRedirects rest reqPath

/-- `handleRedirects(sitePath, reqPath)`: `none` content is a missing
`_redirects` file. -/
def handleRedirects (content : Option String) (reqPath : String) : Option Redirect :=
  match content with
  | none => none
  | some c => matchRedirects (loadRedirects c) reqPath

/-- Does this rule match this path (either branch of the loop body)? -/
def ruleMatches (r : RedirectRule) (path : String) : Bool :=
  r.fromPath = path ||
  (BunPaaS.strEndsWith r.fromPath "/*" &&
    (BunPaaS.strStartsWith path (BunPaaS.strDropRight r.fromPath 2 ++ "/") ||
      path = BunPaaS.strDropRight r.fromPath 2))

end BunPaaS.Redirects

namespace BunPaaS.Redirects

theorem string_mk_toList (s : String) : String.mk s.toList = s := rfl

theorem strDropRight_wildcard (pre : String) :
    BunPaaS.strDropRight (pre ++ "/*") 2 = pre := by
  unfold BunPaaS.strDropRight
  simp [String.toList]

theorem strEndsWith_wildcard (pre : String) :
    BunPaaS.strEndsWith (pre ++ "/*") "/*" = true := by
  unfold BunPaaS.strEndsWith
  simp [String.toList]

theorem matchRedirects_skip (r : RedirectRule) (rest : List RedirectRule) (path : String)
    (h : ruleMatches r path = false) :
    matchRedirects (r :: rest) path = matchRedirects rest path := by
  unfold ruleMatches at h
  rw [Bool.or_eq_false_iff] at h
  obtain ⟨h1, h2⟩ := h
  rw [decide_eq_false_iff_not] at h1
  conv_lhs => rw [matchRedirects]
  rw [if_neg h1]
  rcases hE : BunPaaS.strEndsWith r.fromPath "/*" with _ | _
  · simp only [hE, Bool.false_eq_true, if_false]
  · rw [hE, Bool.true_and, Bool.or_eq_false_iff] at h2
    obtain ⟨h3, h4⟩ := h2
    rw [decide_eq_false_iff_not] at h4
    have hd : decide (path = BunPaaS.strDropRight r.fromPath 2) = false :=
      decide_eq_false h4
    simp only [hE, if_true, h3, hd, Bool.false_or, Bool.false_eq_true, if_false]

end BunPaaS.Redirects

namespace BunPaaS

open BunPaaS.Redirects in
/-- Claim C3, as stated, is false: with the single rule
`/blog/* /x/:splat/:splat`, the request `/blog/a` is redirected to
`/x/a/:splat` — JavaScript's `String.prototype.replace` with a string
pattern substitutes only the first occurrence of `:splat`, not every
occurrence, so the claimed destination `/x/a/a` is not produced. -/
theorem C3_counterexample :
    handleRedirects (some "/blog/* /x/:splat/:splat\n") "/blog/a" =
      some { location := "/x/a/:splat", status := 301 } ∧
    handleRedirects (some "/blog/* /x/:splat/:splat\n") "/blog/a" ≠
      some { location := "/x/a/a", status := 301 } := by
  decide

open BunPaaS.Redirects in
/-- Claim C3 (amended: only the first occurrence of `:splat` in `to` is
replaced, with JS `replace` semantics, and a request path textually equal to
the `from` pattern itself takes the exact-match branch instead): for every
wildcard rule whose `from` is `pre ++ "/*"` and every request path equal to
the prefix or nested under it (and not equal to the pattern itself), with no
earlier matching rule in file order, the rule loop returns a redirect to
`to` with the first `:splat` replaced by the path suffix beyond the prefix,
using the rule's status; and the parsed status defaults to 301 when the
status field is omitted or non-numeric. -/
theorem C3_wildcard_redirect (rules₁ rules₂ : List RedirectRule)
    (r : RedirectRule) (path pre : String) (s : String) :
    (r.fromPath = pre ++ "/*" →
      (∀ r' ∈ rules₁, ruleMatches r' path = false) →
      (BunPaaS.strStartsWith path (pre ++ "/") = true ∨ path = pre) →
      r.fromPath ≠ path →
      matchRedirects (rules₁ ++ r :: rules₂) path =
        some { location := jsReplaceFirst r.toUrl ":splat" (splatOf path pre),
               status := r.status }) ∧
    (jsParseInt s = none → parseStatusField (some s) = 301) ∧
    parseStatusField none = 301 := by
  refine ⟨?_, ?_, rfl⟩
  · intro hpre hearlier hmatch hne
    induction rules₁ with
    | nil =>
      rw [List.nil_append]
      unfold matchRedirects
      rw [if_neg hne, hpre, strEndsWith_wildcard, if_pos rfl, strDropRight_wildcard]
      have hcond : (BunPaaS.strStartsWith path (pre ++ "/") ||
          decide (path = pre)) = true := by
        rcases hmatch with h | h
        · rw [h, Bool.true_or]
        · rw [decide_eq_true h, Bool.or_true]
      simp only [hcond, if_true]
    | cons r' rest ih =>
      rw [List.cons_append, matchRedirects_skip r' (rest ++ r :: rules₂) path
        (hearlier r' (List.mem_cons_self r' rest))]
      exact ih (fun x hx => hearlier x (List.mem_cons_of_mem r' hx))
  · intro hNaN
    have hred : parseStatusField (some s) =
        match jsParseInt s with
        | none => 301
        | some n => if n = 0 then 301 else n := rfl
    rw [hred, hNaN]

open BunPaaS.Redirects in
/-- Witness for `C3_wildcard_redirect`: the spec's own example, behind one
non-matching earlier rule. -/
theorem C3_wildcard_redirect_witness :
    matchRedirects
        [{ fromPath := "/old", toUrl := "/new", status := 301 },
         { fromPath := "/blog/*", toUrl := "/posts/:splat", status := 301 }]
        "/blog/my-post" =
      some { location := jsReplaceFirst "/posts/:splat" ":splat" (splatOf "/blog/my-post" "/blog"),
             status := 301 } :=
  (C3_wildcard_redirect []
      [] { fromPath := "/blog/*", toUrl := "/posts/:splat", status := 301 }
      "/blog/my-post" "/blog" "x").1 (by decide)
    (by intro r' hr'; cases hr') (Or.inl (by decide)) (by decide)

end BunPaaS

namespace BunPaaS.Functions

/-! ## src/lib/functions.js — execution and body parsing

`handleFunction`'s route resolution and module loading are filesystem/module
machinery; the claims concern (a) request-body parsing (lines 44-57) and
(b) the timeout race and error dispatch (lines 69-82 with
`executeWithTimeout`, lines 241-248, and `buildResponse`, lines 84-111).

A handler invocation is modelled by when (if ever) its promise settles and
with what: fulfilled with a result value, or rejected with a thrown value.
JavaScript thrown values split into three observationally distinct classes
for the `catch` block, which reads `err.message`: objects carrying a string
`message`, non-nullish values without one (`.message` is `undefined`), and
nullish values (reading `.message` throws a `TypeError`, which escapes
`handleFunction` entirely). -/

def FUNCTION_TIMEOUT : Nat := 60000

inductive JsThrown where
  | errObj (message : String)
  | primitive
  | nullish
  deriving DecidableEq, Repr

/-- The handler's returned `body` field, split by the `typeof` dispatch in
`buildResponse`.  `obj` carries the `JSON.stringify` image of an object
body; `prim` the `String(...)` image of any other value. -/
inductive FuncBody where
  | noneVal
  | stream
  | bytesVal (data : List Nat)
  | obj (serialized : String)
  | prim (stringified : String)
  deriving DecidableEq, Repr

structure FuncResult where
  status : Option Nat
  headers : List (String × String)
  body : FuncBody
  deriving DecidableEq, Repr

/-- `buildResponse(result)`; the argument is `none` for a falsy handler
result (`undefined`, `null`, ...), giving the bare 204. -/
def buildResponse (result : Option FuncResult) : BunPaaS.Resp :=
  match result with
  | none => { status := 204, headers := [], body := .empty }
  | some result =>
    let status := BunPaaS.jsOrNat result.status 200
    match result.body with
    | .noneVal => { status := status, headers := result.headers, body := .empty }
    | .stream => { status := status, headers := result.headers, body := .stream }
    | .bytesVal data => { status := status, headers := result.headers, body := .bytes data }
    | .obj serialized =>
      { status := status,
        headers := BunPaaS.headerSet result.headers "Content-Type" "application/json",
        body := .text serialized }
    | .prim stringified =>
      { status := status, headers := result.headers, body := .text stringified }

/-- How a handler invocation behaves: settles after `delay` ms with an
outcome, or never settles. -/
inductive HandlerBehavior where
  | settles (delay : Nat) (outcome : Except JsThrown (Option FuncResult))
  | never
  deriving Repr

/-- `executeWithTimeout(promise, timeout)`: `Promise.race` of the handler
against a timer that rejects with `new Error("Function timeout")`.  The
handler wins exactly when it settles strictly before the timer fires. -/
def executeWithTimeout (b : HandlerBehavior) (timeout : Nat) :
    Except JsThrown (Option FuncResult) :=
  match b with
  | .never => .error (.errObj "Function timeout")
  | .settles delay outcome =>
    if delay < timeout then outcome else .error (.errObj "Function timeout")

/-- `Response.json(\x7berror: "Function timed out"\x7d, \x7bstatus: 504\x7d)`. -/
def respTimeout504 : BunPaaS.Resp :=
  { status := 504, headers := [("content-type", "application/json")],
    body := .text "\x7b\"error\":\"Function timed out\"\x7d" }

/-- `Response.json(\x7berror: "Internal function error"\x7d, \x7bstatus: 500\x7d)`. -/
def respInternal500 : BunPaaS.Resp :=
  { status := 500, headers := [("content-type", "application/json")],
    body := .text "\x7b\"error\":\"Internal function error\"\x7d" }

/-- Lines 69-82 of functions.js: the `try/catch` around
`executeWithTimeout(handler(funcReq), timeout)`.  `cfgTimeout` is
`siteConfig?.functionTimeout`.  `.error ()` models an exception escaping
`handleFunction` itself (the catch block rethrows a `TypeError` when the
rejected value is nullish). -/
def handleFunctionExecute (b : HandlerBehavior) (cfgTimeout : Option Nat) :
    Except Unit BunPaaS.Resp :=
  let timeout := BunPaaS.jsOrNat cfgTimeout FUNCTION_TIMEOUT
  match executeWithTimeout b timeout with
  | .ok result => .ok (buildResponse result)
  | .error (.errObj msg) =>
    if msg = "Function timeout" then .ok respTimeout504 else .ok respInternal500
  | .error .primitive => .ok respInternal500
  | .error .nullish => .error ()

/-- Is `needle` a contiguous infix of `hay`? -/
def listInfix (needle : List Char) : List Char → Bool
  | [] => needle.isEmpty
  | c :: rest => needle.isPrefixOf (c :: rest) || listInfix needle rest

/-- Kernel-evaluable JS `String.prototype.includes`. -/
def strIncludes (s sub : String) : Bool :=
  listInfix sub.toList s.toList

/-- The parsed request body handed to the handler. -/
inductive BodyVal (J : Type) where
  | nullVal
  | jsonVal (v : J)
  | bytesVal (data : List Nat)
  | textVal (s : String)
  deriving DecidableEq, Repr

/-- Lines 44-57 of functions.js: body parsing by content type.  `jsonParse`
models the runtime's `req.json()` (`none` = the parse threw); the
surrounding `try/catch` turns a parse failure into a `null` body, so this
function is total. -/
def parseBody {J : Type} (jsonParse : String → Option J)
    (contentType : String) (raw : String) : BodyVal J :=
  if strIncludes contentType "application/json" then
    match jsonParse raw with
    | some v => .jsonVal v
    | none => .nullVal
  else if strIncludes contentType "application/octet-stream" then
    .bytesVal (raw.toList.map Char.toNat)
  else if strIncludes contentType "text/" then
    .textVal raw
  else .nullVal

/-- The request object synthesized for the handler (lines 59-67). -/
structure FuncReq (J : Type) where
  method : String
  path : String
  query : List (String × String)
  headers : List (String × String)
  body : BodyVal J
  params : List (String × String)
  env : List (String × String)
  deriving DecidableEq, Repr

/-- Building the handler's request object: `contentTypeHdr` is
`req.headers.get("content-type")`, defaulted to `""` by `|| ""`. -/
def buildFuncReq {J : Type} (jsonParse : String → Option J)
    (method path : String) (query headers env params : List (String × String))
    (contentTypeHdr : Option String) (raw : String) : FuncReq J :=
  { method := method, path := path, query := query, headers := headers,
    body := parseBody jsonParse (BunPaaS.jsOrStr contentTypeHdr "") raw,
    params := params, env := env }

end BunPaaS.Functions

namespace BunPaaS

open BunPaaS.Functions in
/-- Claim C4, as stated, is false: the two outcomes are distinguished by the
error message, not by whether the timeout elapsed.  A handler that rejects
immediately (well within the timeout) with `new Error("Function timeout")`
produces the 504 timeout response, not the 500 the claim requires for
"any other error". -/
theorem C4_counterexample :
    handleFunctionExecute
        (HandlerBehavior.settles 0 (Except.error (JsThrown.errObj "Function timeout")))
        none = Except.ok respTimeout504 ∧
    respTimeout504.status = 504 ∧
    respTimeout504.status ≠ 500 ∧
    0 < jsOrNat none FUNCTION_TIMEOUT :=
  ⟨rfl, rfl, by decide, by decide⟩

open BunPaaS.Functions in
/-- Claim C4 (amended: the 504/500 split keys on the rejection's `message`
being `"Function timeout"`, the message the timeout timer's own `Error`
carries): a handler that never settles, or settles no earlier than the
configured (or default) timeout, yields the 504 response; a handler that
rejects within the timeout with an error whose message is not
`"Function timeout"` — or with any non-nullish value lacking a message —
yields the 500 response; a handler rejecting with a nullish value makes the
catch block itself throw, escaping handleFunction. -/
theorem C4_timeout_and_error_dispatch (cfgTimeout : Option Nat) (delay : Nat)
    (out : Except JsThrown (Option FuncResult)) (m : String) :
    (handleFunctionExecute HandlerBehavior.never cfgTimeout = Except.ok respTimeout504) ∧
    (¬ delay < jsOrNat cfgTimeout FUNCTION_TIMEOUT →
      handleFunctionExecute (HandlerBehavior.settles delay out) cfgTimeout =
        Except.ok respTimeout504) ∧
    (delay < jsOrNat cfgTimeout FUNCTION_TIMEOUT → m ≠ "Function timeout" →
      handleFunctionExecute
          (HandlerBehavior.settles delay (Except.error (JsThrown.errObj m))) cfgTimeout =
        Except.ok respInternal500) ∧
    (delay < jsOrNat cfgTimeout FUNCTION_TIMEOUT →
      handleFunctionExecute
          (HandlerBehavior.settles delay (Except.error JsThrown.primitive)) cfgTimeout =
        Except.ok respInternal500) ∧
    (delay < jsOrNat cfgTimeout FUNCTION_TIMEOUT →
      handleFunctionExecute
          (HandlerBehavior.settles delay (Except.error JsThrown.nullish)) cfgTimeout =
        Except.error ()) ∧
    respTimeout504.status = 504 ∧ respInternal500.status = 500 := by
  refine ⟨rfl, ?_, ?_, ?_, ?_, rfl, rfl⟩
  · intro h
    simp [handleFunctionExecute, executeWithTimeout, h]
  · intro h hm
    simp [handleFunctionExecute, executeWithTimeout, h, hm]
  · intro h
    simp [handleFunctionExecute, executeWithTimeout, h]
  · intro h
    simp [handleFunctionExecute, executeWithTimeout, h]

open BunPaaS.Functions in
/-- Witness for `C4_timeout_and_error_dispatch`: a handler rejecting after
0 ms with an ordinary error against a 1000 ms tenant timeout gets a 500. -/
theorem C4_timeout_and_error_dispatch_witness :
    handleFunctionExecute
        (HandlerBehavior.settles 0 (Except.error (JsThrown.errObj "boom"))) (some 1000) =
      Except.ok respInternal500 :=
  (C4_timeout_and_error_dispatch (some 1000) 0
      (Except.error (JsThrown.errObj "boom")) "boom").2.2.1 (by decide) (by decide)

open BunPaaS.Functions in
/-- Claim C9 (confirmed): when the Content-Type includes `application/json`
but the body fails to parse, the `try/catch` leaves `body = null`; the
request object handed to the handler is identical to that of a request with
no parsable body (no recognized content type), and no parse-error response
exists — body parsing is total. -/
theorem C9_invalid_json_body_null {J : Type} (jsonParse : String → Option J)
    (method path : String) (query headers env params : List (String × String))
    (ct raw : String)
    (hct : strIncludes ct "application/json" = true)
    (hparse : jsonParse raw = none) :
    buildFuncReq jsonParse method path query headers env params (some ct) raw =
      buildFuncReq jsonParse method path query headers env params none raw ∧
    (buildFuncReq jsonParse method path query headers env params (some ct) raw).body =
      BodyVal.nullVal := by
  by_cases hc : ct = ""
  · rw [hc] at hct
    exact absurd hct (by decide)
  · have hj : jsOrStr (some ct) "" = ct := by simp [jsOrStr, hc]
    have h1 : parseBody jsonParse ct raw = BodyVal.nullVal := by
      simp [parseBody, hct, hparse]
    have h2 : parseBody jsonParse (jsOrStr none "") raw = BodyVal.nullVal := rfl
    constructor
    · unfold buildFuncReq
      rw [hj, h1, h2]
    · unfold buildFuncReq
      simp only [hj, h1]

open BunPaaS.Functions in
/-- Witness for `C9_invalid_json_body_null` with an always-failing JSON
parse on a JSON content type. -/
theorem C9_invalid_json_body_null_witness :
    buildFuncReq (fun (_ : String) => (none : Option Nat)) "POST" "/f"
        [] [] [] [] (some "application/json") "not json" =
      buildFuncReq (fun (_ : String) => (none : Option Nat)) "POST" "/f"
        [] [] [] [] none "not json" ∧
    (buildFuncReq (fun (_ : String) => (none : Option Nat)) "POST" "/f"
        [] [] [] [] (some "application/json") "not json").body =
      BodyVal.nullVal :=
  C9_invalid_json_body_null (fun _ => none) "POST" "/f" [] [] [] []
    "application/json" "not json" (by decide) rfl

end BunPaaS

namespace BunPaaS

theorem lookup_filterne_append_self {α : Type} (t : List (String × α)) (tk : String) (v : α) :
    lookupAssoc ((t.filter (fun p => p.1 ≠ tk)) ++ [(tk, v)]) tk = some v := by
  induction t with
  | nil => simp [lookupAssoc]
  | cons a t ih =>
    by_cases ha : a.1 = tk
    · simpa [List.filter_cons, ha] using ih
    · simpa [List.filter_cons, ha, lookupAssoc] using ih

theorem lookup_filterne_append {α : Type} (t : List (String × α)) (tk tk' : String) (v : α)
    (h : tk' ≠ tk) :
    lookupAssoc ((t.filter (fun p => p.1 ≠ tk)) ++ [(tk, v)]) tk' = lookupAssoc t tk' := by
  induction t with
  | nil => simp [lookupAssoc, Ne.symm h]
  | cons a t ih =>
    by_cases ha : a.1 = tk
    · have hne : a.1 ≠ tk' := by rw [ha]; exact Ne.symm h
      simp only [List.filter_cons, ha]
      simp only [lookupAssoc, hne, if_neg hne]
      simpa using ih
    · by_cases hk : a.1 = tk'
      · simp [List.filter_cons, ha, lookupAssoc, hk, h]
      · simp only [decide_not] at ih
        simp [List.filter_cons, ha, lookupAssoc, hk, h, ih]

theorem headerGet_set_eq (hs : List (String × String)) (k v : String) :
    headerGet (headerSet hs k v) k = some v :=
  lookup_filterne_append_self hs (strToLower k) v

theorem headerGet_set_ne (hs : List (String × String)) (k v k' : String)
    (h : strToLower k' ≠ strToLower k) :
    headerGet (headerSet hs k v) k' = headerGet hs k' :=
  lookup_filterne_append hs (strToLower k) (strToLower k') v h

/-- A registry `Site` entry (sites.js): the value stored under a hostname in
`sites.json`.  `created` and `lastDeploy` are nullable strings. -/
structure Site where
  enabled : Bool
  deployKey : String
  env : List (String × String)
  created : Option String
  lastDeploy : Option String
  deriving DecidableEq, Repr

/-- JS falsiness of an optional string property (`undefined` or `""`). -/
def jsFalsyStr (o : Option String) : Bool :=
  match o with
  | none => true
  | some s => s = ""

end BunPaaS

namespace BunPaaS.Auth

/-! ## src/lib/middleware/auth.js

`Bun.password.verify` and base64 decoding are platform calls, modelled as
oracle parameters: `verify` takes the provided password (absent when the
credential string had no `:`, in which case the real call rejects) and the
stored hash, and either resolves with a boolean or rejects. -/

inductive VerifyOutcome where
  | ok (valid : Bool)
  | error
  deriving DecidableEq, Repr

def strDrop (s : String) (n : Nat) : String :=
  String.mk (s.toList.drop n)

/-- Generic single-character split (JS `String.prototype.split`). -/
def splitOnCharList (sep : Char) : List Char → List (List Char)
  | [] => [[]]
  | x :: xs =>
    let r := splitOnCharList sep xs
    if x = sep then [] :: r
    else
      match r with
      | [] => [[x]]
      | h :: t => (x :: h) :: t

/-- 401 with the Basic challenge header. -/
def resp401 (msg : String) : BunPaaS.Resp :=
  { status := 401, headers := [("www-authenticate", "Basic realm=\"Admin\"")],
    body := .text msg }

/-- `checkBasicAuth(req, site)`: returns a response when authentication
fails (or is misconfigured), `none` on success. -/
def checkBasicAuth (verify : Option String → String → VerifyOutcome)
    (base64decode : String → String)
    (headers : List (String × String)) (site : BunPaaS.Site) : Option BunPaaS.Resp :=
  let username := BunPaaS.lookupAssoc site.env "ADMIN_USERNAME"
  let passwordHash := BunPaaS.lookupAssoc site.env "ADMIN_PASSWORD_HASH"
  if BunPaaS.jsFalsyStr username || BunPaaS.jsFalsyStr passwordHash then
    some (BunPaaS.mkTextResp 500 "Auth not configured")
  else
    let authHeader := BunPaaS.headerGet headers "authorization"
    if BunPaaS.jsFalsyStr authHeader ||
        !(BunPaaS.strStartsWith (BunPaaS.jsOrStr authHeader "") "Basic ") then
      some (resp401 "Authentication required")
    else
      let credentials := base64decode (strDrop (BunPaaS.jsOrStr authHeader "") 6)
      let parts := splitOnCharList ':' credentials.toList
      let providedUsername := String.mk (parts.headD [])
      let providedPassword := (parts.get? 1).map String.mk
      if providedUsername ≠ BunPaaS.jsOrStr username "" then
        some (resp401 "Invalid credentials")
      else
        match verify providedPassword (BunPaaS.jsOrStr passwordHash "") with
        | .ok true => none
        | .ok false => some (resp401 "Invalid credentials")
        | .error => some (BunPaaS.mkTextResp 500 "Auth error")

end BunPaaS.Auth

namespace BunPaaS

open BunPaaS.Auth in
/-- Claim C10 (confirmed): when the site's stored credentials are incomplete
(`env` lacks `ADMIN_USERNAME` or `ADMIN_PASSWORD_HASH`), `checkBasicAuth`
returns the 500 "Auth not configured" response for every request — the
credential check precedes the Authorization-header parse, so the
misconfiguration 500 takes precedence over the 401 challenge even when no
Authorization header is present. -/
theorem C10_auth_misconfigured_500 (verify : Option String → String → VerifyOutcome)
    (base64decode : String → String) (headers : List (String × String))
    (site : Site)
    (h : lookupAssoc site.env "ADMIN_USERNAME" = none ∨
         lookupAssoc site.env "ADMIN_PASSWORD_HASH" = none) :
    checkBasicAuth verify base64decode headers site =
      some (mkTextResp 500 "Auth not configured") := by
  rcases h with h | h
  · simp [checkBasicAuth, jsFalsyStr, h]
  · simp [checkBasicAuth, jsFalsyStr, h]

open BunPaaS.Auth in
/-- Witness for `C10_auth_misconfigured_500`: a site whose env has only the
username, and a request with no Authorization header. -/
theorem C10_auth_misconfigured_500_witness :
    checkBasicAuth (fun _ _ => VerifyOutcome.error) (fun s => s) []
        { enabled := true, deployKey := "dk_x",
          env := [("ADMIN_USERNAME", "admin")], created := none, lastDeploy := none } =
      some (mkTextResp 500 "Auth not configured") :=
  C10_auth_misconfigured_500 (fun _ _ => VerifyOutcome.error) (fun s => s) []
    { enabled := true, deployKey := "dk_x",
      env := [("ADMIN_USERNAME", "admin")], created := none, lastDeploy := none }
    (Or.inr (by decide))

end BunPaaS

namespace BunPaaS.Router

/-! ## src/lib/router.js

`handleRequest` is embedded over an environment of its collaborator calls
(site lookup, config load, auth middleware, redirect engine, static
resolver, function dispatcher, error-page renderer, and the generated
request id), each of which is modelled elsewhere in this file; the router's
own control flow — stage order, short-circuits, and response decoration —
is translated line by line.  Stages are named helper functions so that
theorems can state which stage produced the response. -/

structure CorsConfig where
  origins : List String := []
  credentials : Bool := false
  methods : Option (List String) := none
  headers : Option (List String) := none
  deriving DecidableEq, Repr

/-- The tenant's `auth` setting: the string `"basic"`, some other truthy
primitive (whose `.type` is `undefined`), or an object with `type` and
optional `paths`. -/
inductive AuthConfig where
  | basicStr
  | otherVal
  | typed (type : String) (paths : Option (List String))
  deriving DecidableEq, Repr

structure SiteConfig where
  cors : Option CorsConfig := none
  auth : Option AuthConfig := none
  cacheControl : Option String := none
  functionTimeout : Option Nat := none
  deriving DecidableEq, Repr

/-- The inbound request as the router reads it (`url` fields pre-split). -/
structure Req where
  method : String
  hostname : String
  pathname : String
  search : String
  origin : String
  headers : List (String × String)
  deriving DecidableEq, Repr

structure RouterEnv where
  getSiteByHost : String → Option BunPaaS.Site
  getSiteConfig : String → Option SiteConfig
  checkAuth : Req → BunPaaS.Site → Option BunPaaS.Resp
  redirectsFn : String → String → Option BunPaaS.Resp
  serveStaticFn : String → String → SiteConfig → Option BunPaaS.Resp
  handleFunctionFn : Req → String → SiteConfig → Option BunPaaS.Resp
  serveErrorFn : String → Nat → String → BunPaaS.Resp
  randomUUID : String

/-- `path.join(dataDir, "sites", host, "current")`. -/
def sitePathOf (dataDir host : String) : String :=
  BunPaaS.Static.pathJoin (BunPaaS.Static.pathJoin (BunPaaS.Static.pathJoin dataDir "sites") host) "current"

/-- `Response.redirect(url, status)`. -/
def redirectResp (location : String) (status : Nat) : BunPaaS.Resp :=
  { status := status, headers := [("location", location)], body := .empty }

def isOriginAllowed (origin : String) (c : CorsConfig) : Bool :=
  c.origins.contains "*" || c.origins.contains origin

def joinComma : List String → String
  | [] => ""
  | [x] => x
  | x :: xs => x ++ ", " ++ joinComma xs

/-- `handleCors(corsConfig, req)`: the OPTIONS preflight response. -/
def handleCors (c : CorsConfig) (req : Req) : BunPaaS.Resp :=
  let hs : List (String × String) :=
    match BunPaaS.headerGet req.headers "origin" with
    | none => []
    | some o =>
      if o = "" || !(isOriginAllowed o c) then []
      else
        [("access-control-allow-origin", o),
         ("access-control-allow-methods", joinComma (c.methods.getD ["GET", "POST", "PUT", "DELETE"])),
         ("access-control-allow-headers", joinComma (c.headers.getD ["Content-Type", "Authorization", "X-API-Key"])),
         ("access-control-max-age", "86400")] ++
        (if c.credentials then [("access-control-allow-credentials", "true")] else [])
  { status := 204, headers := hs, body := .empty }

/-- `addCorsHeaders(response, corsConfig, req)`. -/
def addCorsHeaders (r : BunPaaS.Resp) (c : CorsConfig) (req : Req) : BunPaaS.Resp :=
  match BunPaaS.headerGet req.headers "origin" with
  | none => r
  | some o =>
    if o = "" || !(isOriginAllowed o c) then r
    else
      let hs := BunPaaS.headerSet r.headers "Access-Control-Allow-Origin" o
      let hs := if c.credentials then
          BunPaaS.headerSet hs "Access-Control-Allow-Credentials" "true"
        else hs
      { status := r.status, headers := hs, body := r.body }

/-- `addSecurityHeaders(response)`: the three fixed `SECURITY_HEADERS` in
`Object.entries` order. -/
def addSecurityHeaders (r : BunPaaS.Resp) : BunPaaS.Resp :=
  { r with
    headers :=
      BunPaaS.headerSet
        (BunPaaS.headerSet
          (BunPaaS.headerSet r.headers "X-Content-Type-Options" "nosniff")
          "X-Frame-Options" "SAMEORIGIN")
        "Referrer-Policy" "strict-origin-when-cross-origin" }

/-- `auth === "basic" || (auth.type === "basic" && auth.paths?.some(p => ctx.path.startsWith(p)))`. -/
def needsAuth (a : AuthConfig) (path : String) : Bool :=
  match a with
  | .basicStr => true
  | .otherVal => false
  | .typed ty paths =>
    ty = "basic" &&
      (match paths with
       | none => false
       | some ps => ps.any (fun p => BunPaaS.strStartsWith path p))

/-- Stage 4: basic auth; `some` is terminal. -/
def authStage (checkAuth : Req → BunPaaS.Site → Option BunPaaS.Resp)
    (cfg : SiteConfig) (req : Req) (site : BunPaaS.Site) : Option BunPaaS.Resp :=
  match cfg.auth with
  | none => none
  | some a => if needsAuth a req.pathname then checkAuth req site else none

/-- Stage 5: CORS preflight; `some` is terminal. -/
def preflightStage (cfg : SiteConfig) (req : Req) : Option BunPaaS.Resp :=
  if req.method = "OPTIONS" then
    match cfg.cors with
    | some c => some (handleCors c req)
    | none => none
  else none

/-- Stage 7: static first, then functions, then the 404 page. -/
def contentStage (env : RouterEnv) (sitePath : String) (cfg : SiteConfig)
    (req : Req) : BunPaaS.Resp :=
  match env.serveStaticFn sitePath req.pathname cfg with
  | some r => r
  | none =>
    match env.handleFunctionFn req sitePath cfg with
    | some r => r
    | none => env.serveErrorFn sitePath 404 "Not Found"

/-- Stage 8 (CORS part): response CORS headers only when the tenant
declares CORS. -/
def corsStage (cfg : SiteConfig) (req : Req) (r : BunPaaS.Resp) : BunPaaS.Resp :=
  match cfg.cors with
  | some c => addCorsHeaders r c req
  | none => r

/-- `handleRequest(req, options)`. -/
def handleRequest (env : RouterEnv) (dataDir : String) (req : Req) : BunPaaS.Resp :=
  let requestId := BunPaaS.jsOrStr (BunPaaS.headerGet req.headers "x-request-id") env.randomUUID
  match env.getSiteByHost req.hostname with
  | none => BunPaaS.addHeader (BunPaaS.mkTextResp 404 "Site not found") "X-Request-Id" requestId
  | some site =>
    if site.enabled = false then
      BunPaaS.addHeader (BunPaaS.mkTextResp 503 "Site is currently disabled") "X-Request-Id" requestId
    else
      let sitePath := sitePathOf dataDir req.hostname
      let siteConfig := env.getSiteConfig sitePath
      if req.pathname ≠ "/" ∧ BunPaaS.strEndsWith req.pathname "/" = true then
        BunPaaS.addHeader
          (redirectResp (req.origin ++ BunPaaS.strDropRight req.pathname 1 ++ req.search) 301)
          "X-Request-Id" requestId
      else
        let cfg := siteConfig.getD {}
        match authStage env.checkAuth cfg req site with
        | some r => BunPaaS.addHeader r "X-Request-Id" requestId
        | none =>
          match preflightStage cfg req with
          | some r => BunPaaS.addHeader r "X-Request-Id" requestId
          | none =>
            match env.redirectsFn sitePath req.pathname with
            | some r => BunPaaS.addHeader r "X-Request-Id" requestId
            | none =>
              BunPaaS.addHeader
                (corsStage cfg req (addSecurityHeaders (contentStage env sitePath cfg req)))
                "X-Request-Id" requestId

theorem addSecurityHeaders_gets (r : BunPaaS.Resp) :
    BunPaaS.headerGet (addSecurityHeaders r).headers "x-content-type-options" = some "nosniff" ∧
    BunPaaS.headerGet (addSecurityHeaders r).headers "x-frame-options" = some "SAMEORIGIN" ∧
    BunPaaS.headerGet (addSecurityHeaders r).headers "referrer-policy" =
      some "strict-origin-when-cross-origin" := by
  unfold addSecurityHeaders
  refine ⟨?_, ?_, ?_⟩
  · rw [BunPaaS.headerGet_set_ne _ _ _ _ (by decide),
      BunPaaS.headerGet_set_ne _ _ _ _ (by decide)]
    exact BunPaaS.headerGet_set_eq r.headers "X-Content-Type-Options" "nosniff"
  · rw [BunPaaS.headerGet_set_ne _ _ _ _ (by decide)]
    exact BunPaaS.headerGet_set_eq _ "X-Frame-Options" "SAMEORIGIN"
  · exact BunPaaS.headerGet_set_eq _ "Referrer-Policy" "strict-origin-when-cross-origin"

theorem addCorsHeaders_preserves (r : BunPaaS.Resp) (c : CorsConfig) (req : Req) (k' : String)
    (h1 : BunPaaS.strToLower k' ≠ "access-control-allow-origin")
    (h2 : BunPaaS.strToLower k' ≠ "access-control-allow-credentials") :
    BunPaaS.headerGet (addCorsHeaders r c req).headers k' = BunPaaS.headerGet r.headers k' := by
  have e1 : BunPaaS.strToLower "Access-Control-Allow-Origin" = "access-control-allow-origin" := by
    decide
  have e2 : BunPaaS.strToLower "Access-Control-Allow-Credentials" =
      "access-control-allow-credentials" := by
    decide
  have h1' : BunPaaS.strToLower k' ≠ BunPaaS.strToLower "Access-Control-Allow-Origin" := by
    rw [e1]; exact h1
  have h2' : BunPaaS.strToLower k' ≠ BunPaaS.strToLower "Access-Control-Allow-Credentials" := by
    rw [e2]; exact h2
  have g1 := fun hs v => BunPaaS.headerGet_set_ne hs "Access-Control-Allow-Origin" v k' h1'
  have g2 := fun hs v => BunPaaS.headerGet_set_ne hs "Access-Control-Allow-Credentials" v k' h2'
  unfold addCorsHeaders
  cases horig : BunPaaS.headerGet req.headers "origin" with
  | none => rfl
  | some o =>
    by_cases hc : (o = "" || !(isOriginAllowed o c)) = true
    · simp [hc]
    · by_cases hcred : c.credentials = true
      · simp [hc, hcred, g1, g2]
      · simp [hc, hcred, g1, g2]

theorem corsStage_preserves (cfg : SiteConfig) (req : Req) (r : BunPaaS.Resp) (k' : String)
    (h1 : BunPaaS.strToLower k' ≠ "access-control-allow-origin")
    (h2 : BunPaaS.strToLower k' ≠ "access-control-allow-credentials") :
    BunPaaS.headerGet (corsStage cfg req r).headers k' = BunPaaS.headerGet r.headers k' := by
  unfold corsStage
  cases cfg.cors with
  | none => rfl
  | some c => exact addCorsHeaders_preserves r c req k' h1 h2

end BunPaaS.Router

namespace BunPaaS

open BunPaaS.Router in
/-- Claim C5, as stated, is false: the unknown-host 404 short-circuit is
returned before `addSecurityHeaders` runs, so it carries only the
`X-Request-Id` decoration and none of the three fixed security headers. -/
theorem C5_counterexample :
    (handleRequest
        { getSiteByHost := fun _ => none, getSiteConfig := fun _ => none,
          checkAuth := fun _ _ => none, redirectsFn := fun _ _ => none,
          serveStaticFn := fun _ _ _ => none, handleFunctionFn := fun _ _ _ => none,
          serveErrorFn := fun _ s m => mkTextResp s m, randomUUID := "rid" }
        "/data"
        { method := "GET", hostname := "unknown.example", pathname := "/",
          search := "", origin := "http://unknown.example", headers := [] }).status = 404 ∧
    headerGet (handleRequest
        { getSiteByHost := fun _ => none, getSiteConfig := fun _ => none,
          checkAuth := fun _ _ => none, redirectsFn := fun _ _ => none,
          serveStaticFn := fun _ _ _ => none, handleFunctionFn := fun _ _ _ => none,
          serveErrorFn := fun _ s m => mkTextResp s m, randomUUID := "rid" }
        "/data"
        { method := "GET", hostname := "unknown.example", pathname := "/",
          search := "", origin := "http://unknown.example", headers := [] }).headers
      "x-content-type-options" = none ∧
    headerGet (handleRequest
        { getSiteByHost := fun _ => none, getSiteConfig := fun _ => none,
          checkAuth := fun _ _ => none, redirectsFn := fun _ _ => none,
          serveStaticFn := fun _ _ _ => none, handleFunctionFn := fun _ _ _ => none,
          serveErrorFn := fun _ s m => mkTextResp s m, randomUUID := "rid" }
        "/data"
        { method := "GET", hostname := "unknown.example", pathname := "/",
          search := "", origin := "http://unknown.example", headers := [] }).headers
      "x-frame-options" = none ∧
    headerGet (handleRequest
        { getSiteByHost := fun _ => none, getSiteConfig := fun _ => none,
          checkAuth := fun _ _ => none, redirectsFn := fun _ _ => none,
          serveStaticFn := fun _ _ _ => none, handleFunctionFn := fun _ _ _ => none,
          serveErrorFn := fun _ s m => mkTextResp s m, randomUUID := "rid" }
        "/data"
        { method := "GET", hostname := "unknown.example", pathname := "/",
          search := "", origin := "http://unknown.example", headers := [] }).headers
      "x-request-id" = some "rid" := by
  decide

open BunPaaS.Router in
/-- Claim C5 (amended: the three fixed security headers are attached to
every response produced by the content-resolution stage — static file,
function, or error page — while the short-circuit responses for unknown
host, disabled site, trailing-slash redirect, authentication failure, CORS
preflight, and redirect-rule matches carry only the `X-Request-Id`
decoration): whenever the pipeline reaches content resolution, the response
carries all three security headers. -/
theorem C5_security_headers_on_content (env : RouterEnv) (dataDir : String)
    (req : Req) (site : Site)
    (hsite : env.getSiteByHost req.hostname = some site)
    (hen : site.enabled = true)
    (hslash : ¬ (req.pathname ≠ "/" ∧ strEndsWith req.pathname "/" = true))
    (hauth : authStage env.checkAuth
      ((env.getSiteConfig (sitePathOf dataDir req.hostname)).getD {}) req site = none)
    (hpre : preflightStage
      ((env.getSiteConfig (sitePathOf dataDir req.hostname)).getD {}) req = none)
    (hred : env.redirectsFn (sitePathOf dataDir req.hostname) req.pathname = none) :
    headerGet (handleRequest env dataDir req).headers "x-content-type-options" =
      some "nosniff" ∧
    headerGet (handleRequest env dataDir req).headers "x-frame-options" =
      some "SAMEORIGIN" ∧
    headerGet (handleRequest env dataDir req).headers "referrer-policy" =
      some "strict-origin-when-cross-origin" := by
  have hR : handleRequest env dataDir req =
      addHeader
        (corsStage ((env.getSiteConfig (sitePathOf dataDir req.hostname)).getD {}) req
          (addSecurityHeaders
            (contentStage env (sitePathOf dataDir req.hostname)
              ((env.getSiteConfig (sitePathOf dataDir req.hostname)).getD {}) req)))
        "X-Request-Id"
        (jsOrStr (headerGet req.headers "x-request-id") env.randomUUID) := by
    unfold handleRequest
    rw [hsite]
    simp only [hen, Bool.true_eq_false, if_false, if_neg hslash, hauth, hpre, hred]
  rw [hR]
  unfold addHeader
  refine ⟨?_, ?_, ?_⟩
  · rw [headerGet_set_ne _ _ _ _ (by decide),
      corsStage_preserves _ _ _ _ (by decide) (by decide)]
    exact (addSecurityHeaders_gets _).1
  · rw [headerGet_set_ne _ _ _ _ (by decide),
      corsStage_preserves _ _ _ _ (by decide) (by decide)]
    exact (addSecurityHeaders_gets _).2.1
  · rw [headerGet_set_ne _ _ _ _ (by decide),
      corsStage_preserves _ _ _ _ (by decide) (by decide)]
    exact (addSecurityHeaders_gets _).2.2

open BunPaaS.Router in
/-- Witness for `C5_security_headers_on_content`: a one-site world whose
request falls through to the 404 error page. -/
theorem C5_security_headers_on_content_witness :
    headerGet (handleRequest
        { getSiteByHost := fun h =>
            if h = "a.example" then
              some { enabled := true, deployKey := "dk", env := [],
                     created := none, lastDeploy := none }
            else none,
          getSiteConfig := fun _ => none,
          checkAuth := fun _ _ => none, redirectsFn := fun _ _ => none,
          serveStaticFn := fun _ _ _ => none, handleFunctionFn := fun _ _ _ => none,
          serveErrorFn := fun _ s m => mkTextResp s m, randomUUID := "rid" }
        "/data"
        { method := "GET", hostname := "a.example", pathname := "/missing",
          search := "", origin := "http://a.example", headers := [] }).headers
      "x-content-type-options" = some "nosniff" :=
  (C5_security_headers_on_content
    { getSiteByHost := fun h =>
        if h = "a.example" then
          some { enabled := true, deployKey := "dk", env := [],
                 created := none, lastDeploy := none }
        else none,
      getSiteConfig := fun _ => none,
      checkAuth := fun _ _ => none, redirectsFn := fun _ _ => none,
      serveStaticFn := fun _ _ _ => none, handleFunctionFn := fun _ _ _ => none,
      serveErrorFn := fun _ s m => mkTextResp s m, randomUUID := "rid" }
    "/data"
    { method := "GET", hostname := "a.example", pathname := "/missing",
      search := "", origin := "http://a.example", headers := [] }
    { enabled := true, deployKey := "dk", env := [], created := none, lastDeploy := none }
    (by decide) rfl (by decide) rfl rfl rfl).1

end BunPaaS

namespace BunPaaS

/-! JS `Map` operations over the association-list model (insertion order
preserved, as `Map` iteration does). -/

def setAssoc {α : Type} (l : List (String × α)) (k : String) (v : α) :
    List (String × α) :=
  match lookupAssoc l k with
  | some _ => l.map (fun p => if p.1 = k then (k, v) else p)
  | none => l ++ [(k, v)]

def updateAssoc {α : Type} (l : List (String × α)) (k : String) (f : α → α) :
    List (String × α) :=
  l.map (fun p => if p.1 = k then (k, f p.2) else p)

def removeAssoc {α : Type} (l : List (String × α)) (k : String) :
    List (String × α) :=
  l.filter (fun p => p.1 ≠ k)

theorem lookup_map_upd_self {α : Type} (l : List (String × α)) (k : String) (v : α) :
    lookupAssoc (l.map (fun p => if p.1 = k then (k, v) else p)) k =
      (lookupAssoc l k).map (fun _ => v) := by
  induction l with
  | nil => rfl
  | cons a t ih =>
    by_cases ha : a.1 = k
    · simp [lookupAssoc, ha]
    · simp [lookupAssoc, ha, ih]

theorem lookup_map_upd_ne {α : Type} (l : List (String × α)) (k k' : String) (v : α)
    (h : k' ≠ k) :
    lookupAssoc (l.map (fun p => if p.1 = k then (k, v) else p)) k' =
      lookupAssoc l k' := by
  induction l with
  | nil => rfl
  | cons a t ih =>
    by_cases ha : a.1 = k
    · have hk : a.1 ≠ k' := by rw [ha]; exact Ne.symm h
      simp [lookupAssoc, ha, hk, Ne.symm h, ih]
    · by_cases hk : a.1 = k'
      · simp [lookupAssoc, ha, hk, h]
      · simp [lookupAssoc, ha, hk, ih]

theorem lookup_append_single_ne {α : Type} (l : List (String × α)) (k k' : String) (v : α)
    (h : k' ≠ k) :
    lookupAssoc (l ++ [(k, v)]) k' = lookupAssoc l k' := by
  induction l with
  | nil => simp [lookupAssoc, Ne.symm h]
  | cons a t ih =>
    by_cases hk : a.1 = k'
    · simp [lookupAssoc, hk]
    · simp [lookupAssoc, hk, ih]

theorem lookup_append_single_self {α : Type} (l : List (String × α)) (k : String) (v : α)
    (hl : lookupAssoc l k = none) :
    lookupAssoc (l ++ [(k, v)]) k = some v := by
  induction l with
  | nil => simp [lookupAssoc]
  | cons a t ih =>
    by_cases ha : a.1 = k
    · rw [lookupAssoc] at hl
      simp [ha] at hl
    · rw [lookupAssoc] at hl
      rw [if_neg ha] at hl
      simpa [lookupAssoc, ha] using ih hl

theorem lookup_setAssoc_self {α : Type} (l : List (String × α)) (k : String) (v : α) :
    lookupAssoc (setAssoc l k v) k = some v := by
  unfold setAssoc
  cases hl : lookupAssoc l k with
  | none => exact lookup_append_single_self l k v hl
  | some w => rw [lookup_map_upd_self, hl]; rfl

theorem lookup_setAssoc_ne {α : Type} (l : List (String × α)) (k k' : String) (v : α)
    (h : k' ≠ k) :
    lookupAssoc (setAssoc l k v) k' = lookupAssoc l k' := by
  unfold setAssoc
  cases hl : lookupAssoc l k with
  | none => exact lookup_append_single_ne l k k' v h
  | some w => exact lookup_map_upd_ne l k k' v h

theorem lookup_removeAssoc_self {α : Type} (l : List (String × α)) (k : String) :
    lookupAssoc (removeAssoc l k) k = none := by
  unfold removeAssoc
  induction l with
  | nil => rfl
  | cons a t ih =>
    by_cases ha : a.1 = k
    · simpa [List.filter_cons, ha] using ih
    · simpa [List.filter_cons, ha, lookupAssoc] using ih

end BunPaaS

namespace BunPaaS.Logs

/-! ## src/lib/logs.js — request-log buffering and flushing

The module's state is the in-memory per-host buffer map and the per-host
on-disk lists (`<host>-requests.json` decoded); `logRequest` appends to the
buffer in arrival order (`Array.prototype.push`), and `flushRequestLogs`
prepends each host's buffered batch to its on-disk list, truncates to the
cap, writes back, and clears the buffers.  The flush timer and the
filesystem error path (which leaves buffers intact) are scheduling detail
outside the flushed-data claims. -/

def MAX_REQUEST_LOGS : Nat := 20

structure LogsState (α : Type) where
  requestLogs : List (String × List α)
  disk : List (String × List α)
  deriving Repr

/-- `logRequest(host, entry)`. -/
def logRequest {α : Type} (st : LogsState α) (host : String) (e : α) : LogsState α :=
  { st with requestLogs :=
      match BunPaaS.lookupAssoc st.requestLogs host with
      | some _ => BunPaaS.updateAssoc st.requestLogs host (fun es => es ++ [e])
      | none => st.requestLogs ++ [(host, [e])] }

/-- One host's flush step: `[...entries, ...existing].slice(0, MAX)`. -/
def flushStep {α : Type} (d : List (String × List α)) (p : String × List α) :
    List (String × List α) :=
  let existing := (BunPaaS.lookupAssoc d p.1).getD []
  BunPaaS.setAssoc d p.1 ((p.2 ++ existing).take MAX_REQUEST_LOGS)

/-- `flushRequestLogs()` (the successful-write path). -/
def flushRequestLogs {α : Type} (st : LogsState α) : LogsState α :=
  if st.requestLogs.isEmpty then st
  else
    { requestLogs := [],
      disk := st.requestLogs.foldl flushStep st.disk }

/-- Is this list of timestamps ordered newest (largest) first? -/
def sortedDesc : List Nat → Bool
  | [] => true
  | [_] => true
  | a :: b :: t => (b ≤ a) && sortedDesc (b :: t)

theorem flushFold_preserves_other {α : Type} (ps : List (String × List α))
    (d : List (String × List α)) (host : String)
    (hnot : ∀ q ∈ ps, q.1 ≠ host) :
    BunPaaS.lookupAssoc (ps.foldl flushStep d) host = BunPaaS.lookupAssoc d host := by
  induction ps generalizing d with
  | nil => rfl
  | cons p rest ih =>
    rw [List.foldl_cons]
    rw [ih (flushStep d p) (fun q hq => hnot q (List.mem_cons_of_mem p hq))]
    exact BunPaaS.lookup_setAssoc_ne d p.1 host _
      (fun hh => hnot p (List.mem_cons_self p rest) hh.symm)

theorem flushFold_lookup {α : Type} (ps : List (String × List α))
    (d : List (String × List α)) (host : String) (buf : List α)
    (hmem : BunPaaS.lookupAssoc ps host = some buf)
    (hnodup : (ps.map Prod.fst).Nodup) :
    BunPaaS.lookupAssoc (ps.foldl flushStep d) host =
      some ((buf ++ (BunPaaS.lookupAssoc d host).getD []).take MAX_REQUEST_LOGS) := by
  induction ps generalizing d with
  | nil => exact absurd hmem (by simp [BunPaaS.lookupAssoc])
  | cons p rest ih =>
    rw [List.map_cons, List.nodup_cons] at hnodup
    obtain ⟨hp1, hrest⟩ := hnodup
    rw [BunPaaS.lookupAssoc] at hmem
    by_cases hph : p.1 = host
    · rw [if_pos hph] at hmem
      injection hmem with hbuf
      rw [List.foldl_cons]
      have hnot : ∀ q ∈ rest, q.1 ≠ host := by
        intro q hq hqh
        exact hp1 (by rw [← hph] at hqh; rw [← hqh]; exact List.mem_map_of_mem Prod.fst hq)
      rw [flushFold_preserves_other rest (flushStep d p) host hnot]
      unfold flushStep
      rw [hph, hbuf]
      exact BunPaaS.lookup_setAssoc_self d host _
    · rw [if_neg hph] at hmem
      rw [List.foldl_cons]
      rw [ih (flushStep d p) hmem hrest]
      unfold flushStep
      rw [BunPaaS.lookup_setAssoc_ne d p.1 host _ (fun hh => hph hh.symm)]

end BunPaaS.Logs

namespace BunPaaS

open BunPaaS.Logs in
/-- Claim C6, as stated, is false on within-batch ordering: buffering the
entry with timestamp 1 and then the newer entry with timestamp 2 for a host
with no on-disk list and flushing yields the on-disk list `[1, 2]` — the
batch is written in arrival order (oldest first), not newest-first. -/
theorem C6_counterexample :
    lookupAssoc (flushRequestLogs (logRequest (logRequest
        ({ requestLogs := [], disk := [] } : LogsState Nat) "h" 1) "h" 2)).disk "h" =
      some [1, 2] ∧
    sortedDesc [1, 2] = false := by
  decide

open BunPaaS.Logs in
/-- Claim C6 (amended: within a single flushed batch, entries appear in
arrival order — oldest of the batch first — rather than newest-first): after
a flush, the on-disk list for a buffered host is exactly the buffered batch
(in arrival order) followed by the previously persisted entries, truncated
to the cap; hence it never exceeds the cap, equals the cap exactly when at
least that many entries exist in total, every newly buffered entry precedes
every previously persisted entry, and the buffer is emptied. -/
theorem C6_flush_cap_and_order {α : Type} (st : LogsState α) (host : String)
    (buf : List α)
    (hmem : lookupAssoc st.requestLogs host = some buf)
    (hnodup : (st.requestLogs.map Prod.fst).Nodup) :
    lookupAssoc (flushRequestLogs st).disk host =
      some ((buf ++ (lookupAssoc st.disk host).getD []).take MAX_REQUEST_LOGS) ∧
    ((buf ++ (lookupAssoc st.disk host).getD []).take MAX_REQUEST_LOGS).length ≤
      MAX_REQUEST_LOGS ∧
    (MAX_REQUEST_LOGS ≤ (buf ++ (lookupAssoc st.disk host).getD []).length →
      ((buf ++ (lookupAssoc st.disk host).getD []).take MAX_REQUEST_LOGS).length =
        MAX_REQUEST_LOGS) ∧
    (flushRequestLogs st).requestLogs = [] := by
  have hne : st.requestLogs.isEmpty = false := by
    cases hreq : st.requestLogs with
    | nil =>
      rw [hreq] at hmem
      exact absurd hmem (by simp [lookupAssoc])
    | cons a t => rfl
  refine ⟨?_, ?_, ?_, ?_⟩
  · unfold flushRequestLogs
    simp only [hne, Bool.false_eq_true, if_false]
    exact flushFold_lookup st.requestLogs st.disk host buf hmem hnodup
  · simp [List.length_take]
  · intro hlen
    rw [List.length_append] at hlen
    simp [List.length_take, Nat.min_eq_left hlen]
  · unfold flushRequestLogs
    simp only [hne, Bool.false_eq_true, if_false]

open BunPaaS.Logs in
/-- Witness for `C6_flush_cap_and_order`: batch `[10, 5]` flushed onto an
existing list `[7]`. -/
theorem C6_flush_cap_and_order_witness :
    lookupAssoc (flushRequestLogs
        ({ requestLogs := [("h", [10, 5])], disk := [("h", [7])] } : LogsState Nat)).disk
        "h" =
      some (([10, 5] ++ (lookupAssoc
        ({ requestLogs := [("h", [10, 5])], disk := [("h", [7])] } :
          LogsState Nat).disk "h").getD []).take MAX_REQUEST_LOGS) :=
  (C6_flush_cap_and_order
    ({ requestLogs := [("h", [10, 5])], disk := [("h", [7])] } : LogsState Nat)
    "h" [10, 5] (by decide) (by decide)).1

end BunPaaS

namespace BunPaaS.Channels

/-! ## src/lib/channels.js

The channel map (`channel → Set of subscribers`) with subscribers named by
ids; a fresh id is supplied per `subscribe`, mirroring the fresh
`\x7b controller, heartbeat \x7d` object.  The operations correspond
one-to-one to the module's suspension-point-free mutation sequences:
`subscribe` (the cap check plus the synchronous `start` callback),
`cleanup` (client disconnect or heartbeat write failure), and `publish`
(the fan-out loop, where each subscriber's `enqueue` either succeeds or
throws, triggering inline `cleanup`). -/

abbrev ChannelsState := List (String × List Nat)

/-- `subscribe(channel)`: first component is the updated map, second is
whether the subscription was accepted (`false` = the 503 over-cap result,
which leaves the map untouched). -/
def subscribe (st : ChannelsState) (channel : String) (subId maxSubs : Nat) :
    ChannelsState × Bool :=
  let subscribers := (BunPaaS.lookupAssoc st channel).getD []
  if maxSubs ≤ subscribers.length then (st, false)
  else
    let st1 :=
      match BunPaaS.lookupAssoc st channel with
      | some _ => st
      | none => st ++ [(channel, [])]
    (BunPaaS.updateAssoc st1 channel (fun subs => subs ++ [subId]), true)

/-- `cleanup(channel, subscriber)`. -/
def cleanup (st : ChannelsState) (channel : String) (subId : Nat) : ChannelsState :=
  match BunPaaS.lookupAssoc st channel with
  | none => st
  | some subs =>
    let subs' := subs.erase subId
    if subs' = [] then BunPaaS.removeAssoc st channel
    else BunPaaS.updateAssoc st channel (fun _ => subs')

/-- `publish(channel, data)`: `failing i` models subscriber `i`'s
`controller.enqueue` throwing, which triggers inline `cleanup`; the final
empty-set check mirrors the trailing `if (subs.size === 0) channels.delete`. -/
def publish (st : ChannelsState) (channel : String) (failing : Nat → Bool) :
    ChannelsState :=
  match BunPaaS.lookupAssoc st channel with
  | none => st
  | some subs =>
    if subs = [] then st
    else
      let st' := subs.foldl (fun s i => if failing i then cleanup s channel i else s) st
      match BunPaaS.lookupAssoc st' channel with
      | some l => if l = [] then BunPaaS.removeAssoc st' channel else st'
      | none => st'

inductive ChanOp where
  | sub (channel : String) (subId maxSubs : Nat)
  | pub (channel : String) (failing : Nat → Bool)
  | disconnect (channel : String) (subId : Nat)

def applyOp (st : ChannelsState) : ChanOp → ChannelsState
  | .sub c i m => (subscribe st c i m).1
  | .pub c f => publish st c f
  | .disconnect c i => cleanup st c i

def runOps (ops : List ChanOp) (st : ChannelsState) : ChannelsState :=
  ops.foldl applyOp st

/-- No channel entry has an empty subscriber set. -/
def goodStateB (st : ChannelsState) : Bool :=
  st.all (fun p => !p.2.isEmpty)

theorem goodStateB_removeAssoc (st : ChannelsState) (c : String)
    (h : goodStateB st = true) :
    goodStateB (BunPaaS.removeAssoc st c) = true := by
  unfold goodStateB BunPaaS.removeAssoc at *
  rw [List.all_eq_true] at h ⊢
  intro p hp
  exact h p (List.mem_of_mem_filter hp)

theorem goodStateB_subscribe (st : ChannelsState) (c : String) (i m : Nat)
    (h : goodStateB st = true) :
    goodStateB (subscribe st c i m).1 = true := by
  unfold subscribe
  by_cases hcap : m ≤ ((BunPaaS.lookupAssoc st c).getD []).length
  · simp only [hcap, if_true]
    exact h
  · simp only [hcap, if_false]
    unfold goodStateB BunPaaS.updateAssoc at *
    rw [List.all_eq_true] at h ⊢
    intro p hp
    rw [List.mem_map] at hp
    obtain ⟨q, hq, hpq⟩ := hp
    have hqorig : q ∈ st ∨ q = (c, ([] : List Nat)) := by
      cases hl : BunPaaS.lookupAssoc st c with
      | some w =>
        rw [hl] at hq
        exact Or.inl hq
      | none =>
        rw [hl] at hq
        rcases List.mem_append.mp hq with hq1 | hq2
        · exact Or.inl hq1
        · exact Or.inr (List.mem_singleton.mp hq2)
    by_cases hqc : q.1 = c
    · rw [if_pos hqc] at hpq
      rw [← hpq]
      simp
    · rw [if_neg hqc] at hpq
      rcases hqorig with hq1 | hq2
      · rw [← hpq]
        exact h q hq1
      · rw [hq2] at hqc
        exact absurd rfl hqc

theorem goodStateB_cleanup (st : ChannelsState) (c : String) (i : Nat)
    (h : goodStateB st = true) :
    goodStateB (cleanup st c i) = true := by
  unfold cleanup
  cases hl : BunPaaS.lookupAssoc st c with
  | none => exact h
  | some subs =>
    by_cases he : subs.erase i = []
    · simp only [he, if_true]
      exact goodStateB_removeAssoc st c h
    · simp only [he, if_false]
      unfold goodStateB BunPaaS.updateAssoc at *
      rw [List.all_eq_true] at h ⊢
      intro p hp
      rw [List.mem_map] at hp
      obtain ⟨q, hq, hpq⟩ := hp
      by_cases hqc : q.1 = c
      · rw [if_pos hqc] at hpq
        rw [← hpq]
        simpa using he
      · rw [if_neg hqc] at hpq
        rw [← hpq]
        exact h q hq

theorem goodStateB_publish (st : ChannelsState) (c : String) (f : Nat → Bool)
    (h : goodStateB st = true) :
    goodStateB (publish st c f) = true := by
  unfold publish
  cases hl : BunPaaS.lookupAssoc st c with
  | none => exact h
  | some subs =>
    by_cases hs : subs = []
    · simp only [hs, if_true]
      exact h
    · simp only [hs, if_false]
      have hfold : ∀ (l : List Nat) (d : ChannelsState), goodStateB d = true →
          goodStateB (l.foldl (fun s i => if f i then cleanup s c i else s) d) = true := by
        intro l
        induction l with
        | nil => intro d hd; exact hd
        | cons a t ih =>
          intro d hd
          rw [List.foldl_cons]
          apply ih
          by_cases hf : f a = true
          · rw [if_pos hf]
            exact goodStateB_cleanup d c a hd
          · rw [if_neg hf]
            exact hd
      have h1 := hfold subs st h
      split
      · split
        · exact goodStateB_removeAssoc _ c h1
        · exact h1
      · exact h1

theorem goodStateB_runOps (ops : List ChanOp) (st : ChannelsState)
    (h : goodStateB st = true) :
    goodStateB (runOps ops st) = true := by
  induction ops generalizing st with
  | nil => exact h
  | cons op rest ih =>
    unfold runOps
    rw [List.foldl_cons]
    apply ih
    cases op with
    | sub c i m => exact goodStateB_subscribe st c i m h
    | pub c f => exact goodStateB_publish st c f h
    | disconnect c i => exact goodStateB_cleanup st c i h

end BunPaaS.Channels

namespace BunPaaS

open BunPaaS.Channels in
/-- Claim C7 (confirmed): starting from any channel map in which every
channel has at least one subscriber, any sequence of subscribe, publish
(with any set of failing subscriber sinks), and disconnect/cleanup
operations preserves that invariant — the map never persists an entry with
an empty subscriber set — and removing a channel's last subscriber via
cleanup deletes the channel entry. -/
theorem C7_no_empty_channels (ops : List ChanOp) (st : ChannelsState)
    (c : String) (i : Nat)
    (hgood : goodStateB st = true) :
    goodStateB (runOps ops st) = true ∧
    (lookupAssoc st c = some [i] → lookupAssoc (cleanup st c i) c = none) := by
  refine ⟨goodStateB_runOps ops st hgood, ?_⟩
  intro hl
  unfold cleanup
  rw [hl]
  simp [lookup_removeAssoc_self]

open BunPaaS.Channels in
/-- Witness for `C7_no_empty_channels`: a subscribe, a publish whose every
write fails, and a disconnect of a sole subscriber. -/
theorem C7_no_empty_channels_witness :
    goodStateB (runOps
        [ChanOp.sub "room" 1 500, ChanOp.pub "room" (fun _ => true),
         ChanOp.disconnect "news" 7]
        [("news", [7])]) = true ∧
    (lookupAssoc [("news", [7])] "news" = some [7] →
      lookupAssoc (cleanup [("news", [7])] "news" 7) "news" = none) :=
  C7_no_empty_channels
    [ChanOp.sub "room" 1 500, ChanOp.pub "room" (fun _ => true),
     ChanOp.disconnect "news" 7]
    [("news", [7])] "news" 7 (by decide)

end BunPaaS

namespace BunPaaS.Sites

/-! ## src/lib/sites.js — registry persistence

`sites.json` holds `\x7b "sites": \x7b host: Site \x7d \x7d`.  The module
state is the cache pair plus the filesystem (path → content and mtime).
`JSON.stringify` on the registry document and `JSON.parse` of such a
document are modelled by a serializer and a recursive-descent parser over
character lists, exact to JSON's string-escape rules (`JSON.stringify`
escapes `"`, `\`, the `\b \t \n \f \r` shortcuts, and other control
characters as lowercase `\u00xx`; the parser also accepts the remaining
standard escapes). -/

structure RegistryData where
  sites : List (String × BunPaaS.Site)
  deriving DecidableEq, Repr

def hexDigitChar (n : Nat) : Char :=
  if n < 10 then Char.ofNat (48 + n) else Char.ofNat (87 + n)

def escChar (c : Char) : List Char :=
  if c = '"' then ['\\', '"']
  else if c = '\\' then ['\\', '\\']
  else if c = '\x08' then ['\\', 'b']
  else if c = '\t' then ['\\', 't']
  else if c = '\n' then ['\\', 'n']
  else if c = '\x0c' then ['\\', 'f']
  else if c = '\r' then ['\\', 'r']
  else if c.toNat < 32 then
    ['\\', 'u', '0', '0', hexDigitChar (c.toNat / 16), hexDigitChar (c.toNat % 16)]
  else [c]

def escList : List Char → List Char
  | [] => []
  | c :: cs => escChar c ++ escList cs

def serStr (s : String) : List Char :=
  '"' :: escList s.toList ++ ['"']

def serBool : Bool → List Char
  | true => ['t', 'r', 'u', 'e']
  | false => ['f', 'a', 'l', 's', 'e']

def serOptStr : Option String → List Char
  | none => ['n', 'u', 'l', 'l']
  | some s => serStr s

def serEnvFields : List (String × String) → List Char
  | [] => []
  | [(k, v)] => serStr k ++ ':' :: serStr v
  | (k, v) :: rest => serStr k ++ ':' :: serStr v ++ ',' :: serEnvFields rest

def serEnv (env : List (String × String)) : List Char :=
  '\x7b' :: serEnvFields env ++ ['\x7d']

def serSite (s : BunPaaS.Site) : List Char :=
  "\x7b\"enabled\":".toList ++ serBool s.enabled ++
  ",\"deployKey\":".toList ++ serStr s.deployKey ++
  ",\"env\":".toList ++ serEnv s.env ++
  ",\"created\":".toList ++ serOptStr s.created ++
  ",\"lastDeploy\":".toList ++ serOptStr s.lastDeploy ++ ['\x7d']

def serSitesFields : List (String × BunPaaS.Site) → List Char
  | [] => []
  | [(h, s)] => serStr h ++ ':' :: serSite s
  | (h, s) :: rest => serStr h ++ ':' :: serSite s ++ ',' :: serSitesFields rest

/-- `JSON.stringify(data)` for a registry document. -/
def serRegistry (d : RegistryData) : String :=
  String.mk ("\x7b\"sites\":\x7b".toList ++ serSitesFields d.sites ++ ['\x7d', '\x7d'])

def expectPrefix : List Char → List Char → Option (List Char)
  | [], cs => some cs
  | _ :: _, [] => none
  | l :: ls, c :: cs => if l = c then expectPrefix ls cs else none

def hexVal (c : Char) : Option Nat :=
  if 48 ≤ c.toNat ∧ c.toNat ≤ 57 then some (c.toNat - 48)
  else if 97 ≤ c.toNat ∧ c.toNat ≤ 102 then some (c.toNat - 87)
  else if 65 ≤ c.toNat ∧ c.toNat ≤ 70 then some (c.toNat - 55)
  else none

def parseHex4 (h1 h2 h3 h4 : Char) : Option Nat :=
  match hexVal h1, hexVal h2, hexVal h3, hexVal h4 with
  | some a, some b, some c, some d => some (a * 4096 + b * 256 + c * 16 + d)
  | _, _, _, _ => none

def parseEsc : List Char → Option (Char × List Char)
  | [] => none
  | c :: r =>
    if c = '"' then some ('"', r)
    else if c = '\\' then some ('\\', r)
    else if c = '/' then some ('/', r)
    else if c = 'b' then some ('\x08', r)
    else if c = 'f' then some ('\x0c', r)
    else if c = 'n' then some ('\n', r)
    else if c = 'r' then some ('\r', r)
    else if c = 't' then some ('\t', r)
    else if c = 'u' then
      match r with
      | h1 :: h2 :: h3 :: h4 :: r2 =>
        match parseHex4 h1 h2 h3 h4 with
        | some v => some (Char.ofNat v, r2)
        | none => none
      | _ => none
    else none

def parseStrBody : Nat → List Char → Option (List Char × List Char)
  | 0, _ => none
  | _ + 1, [] => none
  | fuel + 1, c :: cs =>
    if c = '"' then some ([], cs)
    else if c = '\\' then
      match parseEsc cs with
      | some (e, cs') =>
        match parseStrBody fuel cs' with
        | some (s, rest) => some (e :: s, rest)
        | none => none
      | none => none
    else
      match parseStrBody fuel cs with
      | some (s, rest) => some (c :: s, rest)
      | none => none

def parseJString (fuel : Nat) : List Char → Option (List Char × List Char)
  | '"' :: rest => parseStrBody fuel rest
  | _ => none

def parseBool (cs : List Char) : Option (Bool × List Char) :=
  match expectPrefix ['t', 'r', 'u', 'e'] cs with
  | some r => some (true, r)
  | none =>
    match expectPrefix ['f', 'a', 'l', 's', 'e'] cs with
    | some r => some (false, r)
    | none => none

def parseStrOrNull (fuel : Nat) (cs : List Char) :
    Option (Option (List Char) × List Char) :=
  match expectPrefix ['n', 'u', 'l', 'l'] cs with
  | some r => some (none, r)
  | none =>
    match parseJString fuel cs with
    | some (s, r) => some (some s, r)
    | none => none

def parseEnvFields : Nat → List Char → Option (List (String × String) × List Char)
  | 0, _ => none
  | fuel + 1, cs =>
    match parseJString cs.length cs with
    | none => none
    | some (k, cs1) =>
      match cs1 with
      | ':' :: cs2 =>
        match parseJString cs2.length cs2 with
        | none => none
        | some (v, cs3) =>
          match cs3 with
          | ',' :: cs4 =>
            match parseEnvFields fuel cs4 with
            | some (fs, rest) => some ((String.mk k, String.mk v) :: fs, rest)
            | none => none
          | d :: cs4 =>
            if d = '\x7d' then some ([(String.mk k, String.mk v)], cs4) else none
          | [] => none
      | _ => none

def parseEnvObj (fuel : Nat) : List Char → Option (List (String × String) × List Char)
  | [] => none
  | b :: rest =>
    if b = '\x7b' then
      match rest with
      | d :: rest' =>
        if d = '\x7d' then some ([], rest') else parseEnvFields fuel (d :: rest')
      | [] => none
    else none

def parseSite (cs : List Char) : Option (BunPaaS.Site × List Char) :=
  (expectPrefix "\x7b\"enabled\":".toList cs).bind fun cs1 =>
  (parseBool cs1).bind fun p1 =>
  (expectPrefix ",\"deployKey\":".toList p1.2).bind fun cs3 =>
  (parseJString cs3.length cs3).bind fun p2 =>
  (expectPrefix ",\"env\":".toList p2.2).bind fun cs5 =>
  (parseEnvObj cs5.length cs5).bind fun p3 =>
  (expectPrefix ",\"created\":".toList p3.2).bind fun cs7 =>
  (parseStrOrNull cs7.length cs7).bind fun p4 =>
  (expectPrefix ",\"lastDeploy\":".toList p4.2).bind fun cs9 =>
  (parseStrOrNull cs9.length cs9).bind fun p5 =>
  match p5.2 with
  | d :: cs11 =>
    if d = '\x7d' then
      some ({ enabled := p1.1, deployKey := String.mk p2.1,
              env := p3.1, created := p4.1.map String.mk,
              lastDeploy := p5.1.map String.mk }, cs11)
    else none
  | [] => none

def parseSitesFields : Nat → List Char → Option (List (String × BunPaaS.Site) × List Char)
  | 0, _ => none
  | fuel + 1, cs =>
    (parseJString cs.length cs).bind fun p1 =>
    match p1.2 with
    | ':' :: cs2 =>
      (parseSite cs2).bind fun p2 =>
      match p2.2 with
      | ',' :: cs4 =>
        match parseSitesFields fuel cs4 with
        | some (fs, rest) => some ((String.mk p1.1, p2.1) :: fs, rest)
        | none => none
      | d :: cs4 =>
        if d = '\x7d' then some ([(String.mk p1.1, p2.1)], cs4) else none
      | [] => none
    | _ => none

/-- `JSON.parse` specialized to registry documents (the only shape
`loadSites` reads back from `sites.json`); `none` models a parse error. -/
def parseRegistry (s : String) : Option RegistryData :=
  match expectPrefix "\x7b\"sites\":\x7b".toList s.toList with
  | none => none
  | some cs1 =>
    match cs1 with
    | d :: cs2 =>
      if d = '\x7d' then
        match cs2 with
        | [e] => if e = '\x7d' then some { sites := [] } else none
        | _ => none
      else
        match parseSitesFields cs1.length cs1 with
        | some (sites, rest) =>
          match rest with
          | [e] => if e = '\x7d' then some { sites := sites } else none
          | _ => none
        | none => none
    | [] => none

end BunPaaS.Sites
namespace BunPaaS.Sites

theorem hexVal_hexDigitChar : ∀ n, n < 16 → hexVal (hexDigitChar n) = some n := by decide

theorem expectPrefix_round (l rest : List Char) : expectPrefix l (l ++ rest) = some rest := by
  induction l with
  | nil => rfl
  | cons c cs ih => simpa [expectPrefix] using ih

theorem parseStrBody_step (c : Char) (tail : List Char) (fuel : Nat) :
    parseStrBody (fuel + 1) (escChar c ++ tail) =
      match parseStrBody fuel tail with
      | some (s, rest) => some (c :: s, rest)
      | none => none := by
  unfold escChar
  by_cases h1 : c = '"'
  · simp only [h1, if_true]; rfl
  · rw [if_neg h1]
    by_cases h2 : c = '\\'
    · simp only [h2, if_true]; rfl
    · rw [if_neg h2]
      by_cases h3 : c = '\x08'
      · simp only [h3, if_true]; rfl
      · rw [if_neg h3]
        by_cases h4 : c = '\t'
        · simp only [h4, if_true]; rfl
        · rw [if_neg h4]
          by_cases h5 : c = '\n'
          · simp only [h5, if_true]; rfl
          · rw [if_neg h5]
            by_cases h6 : c = '\x0c'
            · simp only [h6, if_true]; rfl
            · rw [if_neg h6]
              by_cases h7 : c = '\r'
              · simp only [h7, if_true]; rfl
              · rw [if_neg h7]
                by_cases h8 : c.toNat < 32
                · simp only [h8, if_true]
                  have hd1 : hexVal (hexDigitChar (c.toNat / 16)) = some (c.toNat / 16) :=
                    hexVal_hexDigitChar _ (by omega)
                  have hd2 : hexVal (hexDigitChar (c.toNat % 16)) = some (c.toNat % 16) :=
                    hexVal_hexDigitChar _ (Nat.mod_lt _ (by norm_num))
                  have hhex : parseHex4 '0' '0' (hexDigitChar (c.toNat / 16))
                      (hexDigitChar (c.toNat % 16)) = some c.toNat := by
                    unfold parseHex4
                    rw [hd1, hd2]
                    show some (0 * 4096 + 0 * 256 + c.toNat / 16 * 16 + c.toNat % 16) =
                      some c.toNat
                    congr 1
                    omega
                  have hesc : parseEsc ('u' :: '0' :: '0' ::
                      hexDigitChar (c.toNat / 16) :: hexDigitChar (c.toNat % 16) :: tail) =
                      some (c, tail) := by
                    rw [parseEsc]
                    rw [if_neg (by decide), if_neg (by decide), if_neg (by decide),
                      if_neg (by decide), if_neg (by decide), if_neg (by decide),
                      if_neg (by decide), if_neg (by decide), if_pos rfl]
                    show (match parseHex4 '0' '0' (hexDigitChar (c.toNat / 16))
                        (hexDigitChar (c.toNat % 16)) with
                      | some v => some (Char.ofNat v, tail)
                      | none => none) = some (c, tail)
                    rw [hhex]
                    show some (Char.ofNat c.toNat, tail) = some (c, tail)
                    rw [Char.ofNat_toNat]
                  show parseStrBody (fuel + 1) ('\\' :: 'u' :: '0' :: '0' ::
                    hexDigitChar (c.toNat / 16) :: hexDigitChar (c.toNat % 16) :: tail) = _
                  rw [parseStrBody]
                  rw [if_neg (by decide), if_pos rfl, hesc]
                · simp only [h8, if_false]
                  show parseStrBody (fuel + 1) (c :: tail) = _
                  rw [parseStrBody]
                  rw [if_neg h1, if_neg h2]

theorem parseStrBody_round (s : List Char) (rest : List Char) :
    ∀ fuel, s.length < fuel →
      parseStrBody fuel (escList s ++ '"' :: rest) = some (s, rest) := by
  induction s with
  | nil =>
    intro fuel h
    cases fuel with
    | zero => omega
    | succ m => rfl
  | cons c cs ih =>
    intro fuel h
    cases fuel with
    | zero => omega
    | succ m =>
      have hsplit : escList (c :: cs) ++ '"' :: rest =
          escChar c ++ (escList cs ++ '"' :: rest) := by
        simp [escList, List.append_assoc]
      rw [hsplit, parseStrBody_step, ih m (by simpa using Nat.lt_of_succ_lt_succ h)]

theorem escChar_length_pos (c : Char) : 1 ≤ (escChar c).length := by
  unfold escChar
  split_ifs <;> simp

theorem escList_length (s : List Char) : s.length ≤ (escList s).length := by
  induction s with
  | nil => simp [escList]
  | cons c cs ih =>
    have h1 := escChar_length_pos c
    have h2 : escList (c :: cs) = escChar c ++ escList cs := rfl
    rw [h2, List.length_append, List.length_cons]
    omega

theorem serStr_length (s : String) : s.toList.length + 2 ≤ (serStr s).length := by
  have h1 := escList_length s.toList
  show s.toList.length + 2 ≤ ('"' :: (escList s.toList ++ ['"'])).length
  simp only [List.length_cons, List.length_append, List.length_singleton]
  omega

theorem parseJString_round (s : String) (tail : List Char) (fuel : Nat)
    (h : s.toList.length < fuel) :
    parseJString fuel (serStr s ++ tail) = some (s.toList, tail) := by
  have hsplit : serStr s ++ tail = '"' :: (escList s.toList ++ '"' :: tail) := by
    show ('"' :: (escList s.toList ++ ['"'])) ++ tail = _
    simp [List.append_assoc]
  rw [hsplit]
  show parseStrBody fuel (escList s.toList ++ '"' :: tail) = _
  exact parseStrBody_round s.toList tail fuel h

theorem parseJString_at_length (s : String) (tail : List Char) :
    parseJString (serStr s ++ tail).length (serStr s ++ tail) = some (s.toList, tail) := by
  apply parseJString_round
  have h1 := serStr_length s
  rw [List.length_append]
  omega

end BunPaaS.Sites
namespace BunPaaS.Sites

theorem parseBool_round (b : Bool) (rest : List Char) :
    parseBool (serBool b ++ rest) = some (b, rest) := by
  cases b
  · show parseBool (['f', 'a', 'l', 's', 'e'] ++ rest) = some (false, rest)
    unfold parseBool
    rw [show expectPrefix ['t', 'r', 'u', 'e'] (['f', 'a', 'l', 's', 'e'] ++ rest) = none
        from rfl,
      expectPrefix_round]
  · show parseBool (['t', 'r', 'u', 'e'] ++ rest) = some (true, rest)
    unfold parseBool
    rw [expectPrefix_round]

theorem parseStrOrNull_round_none (fuel : Nat) (rest : List Char) :
    parseStrOrNull fuel (serOptStr none ++ rest) = some (none, rest) := by
  unfold parseStrOrNull
  rw [show serOptStr none ++ rest = ['n', 'u', 'l', 'l'] ++ rest from rfl,
    expectPrefix_round]

theorem parseStrOrNull_round_some (s : String) (rest : List Char) (fuel : Nat)
    (h : s.toList.length < fuel) :
    parseStrOrNull fuel (serOptStr (some s) ++ rest) = some (some s.toList, rest) := by
  unfold parseStrOrNull
  rw [show expectPrefix ['n', 'u', 'l', 'l'] (serOptStr (some s) ++ rest) = none from rfl]
  rw [show serOptStr (some s) ++ rest = serStr s ++ rest from rfl]
  rw [parseJString_round s rest fuel h]

theorem parseStrOrNull_at_length (o : Option String) (rest : List Char) :
    parseStrOrNull (serOptStr o ++ rest).length (serOptStr o ++ rest) =
      some (o.map String.toList, rest) := by
  cases o with
  | none => exact parseStrOrNull_round_none _ rest
  | some s =>
    apply parseStrOrNull_round_some
    have h1 := serStr_length s
    rw [show serOptStr (some s) = serStr s from rfl, List.length_append]
    omega

end BunPaaS.Sites
namespace BunPaaS.Sites

theorem serEnvFields_length (env : List (String × String)) :
    env.length ≤ (serEnvFields env).length := by
  induction env with
  | nil => simp [serEnvFields]
  | cons p more ih =>
    obtain ⟨k, v⟩ := p
    have h1 := serStr_length k
    cases more with
    | nil =>
      rw [serEnvFields]
      simp only [List.length_cons, List.length_nil, List.length_append]
      omega
    | cons q more2 =>
      rw [serEnvFields]
      · simp only [List.length_cons, List.length_append] at ih ⊢
        omega
      · intro hq
        exact List.noConfusion hq

theorem serStr_head (k : String) (X : List Char) :
    serStr k ++ X = '"' :: (escList k.toList ++ '"' :: X) := by
  show ('"' :: (escList k.toList ++ ['"'])) ++ X = _
  simp [List.append_assoc]

theorem parseEnvFields_round (env : List (String × String)) (rest : List Char) :
    ∀ fuel, env.length < fuel → env ≠ [] →
      parseEnvFields fuel (serEnvFields env ++ '\x7d' :: rest) = some (env, rest) := by
  induction env with
  | nil => intro fuel _ hne; exact absurd rfl hne
  | cons p more ih =>
    intro fuel hf _
    obtain ⟨k, v⟩ := p
    cases fuel with
    | zero => omega
    | succ m =>
      cases more with
      | nil =>
        have hcs : serEnvFields [(k, v)] ++ '\x7d' :: rest =
            serStr k ++ (':' :: (serStr v ++ '\x7d' :: rest)) := by
          rw [serEnvFields]
          simp [List.append_assoc]
        rw [hcs, parseEnvFields,
          parseJString_at_length k (':' :: (serStr v ++ '\x7d' :: rest))]
        show (match parseJString (serStr v ++ '\x7d' :: rest).length
            (serStr v ++ '\x7d' :: rest) with
          | none => none
          | some (w, cs3) =>
            match cs3 with
            | ',' :: cs4 =>
              match parseEnvFields m cs4 with
              | some (fs, r2) => some ((String.mk k.toList, String.mk w) :: fs, r2)
              | none => none
            | d :: cs4 =>
              if d = '\x7d' then some ([(String.mk k.toList, String.mk w)], cs4) else none
            | [] => none) = some ([(k, v)], rest)
        rw [parseJString_at_length v ('\x7d' :: rest)]
        show (if '\x7d' = '\x7d' then
            some ([(String.mk k.toList, String.mk v.toList)], rest) else none) =
          some ([(k, v)], rest)
        rw [if_pos rfl, BunPaaS.Redirects.string_mk_toList, BunPaaS.Redirects.string_mk_toList]
      | cons q more2 =>
        have hcs : serEnvFields ((k, v) :: q :: more2) ++ '\x7d' :: rest =
            serStr k ++ (':' :: (serStr v ++ (',' ::
              (serEnvFields (q :: more2) ++ '\x7d' :: rest)))) := by
          rw [serEnvFields]
          · simp [List.append_assoc]
          · intro hq
            exact List.noConfusion hq
        rw [hcs, parseEnvFields,
          parseJString_at_length k
            (':' :: (serStr v ++ (',' :: (serEnvFields (q :: more2) ++ '\x7d' :: rest))))]
        show (match parseJString
              (serStr v ++ (',' :: (serEnvFields (q :: more2) ++ '\x7d' :: rest))).length
              (serStr v ++ (',' :: (serEnvFields (q :: more2) ++ '\x7d' :: rest))) with
          | none => none
          | some (w, cs3) =>
            match cs3 with
            | ',' :: cs4 =>
              match parseEnvFields m cs4 with
              | some (fs, r2) => some ((String.mk k.toList, String.mk w) :: fs, r2)
              | none => none
            | d :: cs4 =>
              if d = '\x7d' then some ([(String.mk k.toList, String.mk w)], cs4) else none
            | [] => none) = some ((k, v) :: q :: more2, rest)
        rw [parseJString_at_length v
          (',' :: (serEnvFields (q :: more2) ++ '\x7d' :: rest))]
        show (match parseEnvFields m (serEnvFields (q :: more2) ++ '\x7d' :: rest) with
          | some (fs, r2) => some ((String.mk k.toList, String.mk v.toList) :: fs, r2)
          | none => none) = some ((k, v) :: q :: more2, rest)
        rw [ih m (by simpa using Nat.lt_of_succ_lt_succ hf) (by simp),
          BunPaaS.Redirects.string_mk_toList, BunPaaS.Redirects.string_mk_toList]

theorem serEnvFields_cons_shape (k v : String) (more : List (String × String)) :
    ∃ X, serEnvFields ((k, v) :: more) = serStr k ++ X := by
  cases more with
  | nil =>
    refine ⟨':' :: serStr v, ?_⟩
    rw [serEnvFields]
  | cons q more2 =>
    refine ⟨':' :: (serStr v ++ ',' :: serEnvFields (q :: more2)), ?_⟩
    rw [serEnvFields]
    · simp [List.append_assoc]
    · intro hq
      exact List.noConfusion hq

theorem parseEnvObj_round (env : List (String × String)) (rest : List Char) (fuel : Nat)
    (h : env.length < fuel) :
    parseEnvObj fuel (serEnv env ++ rest) = some (env, rest) := by
  cases env with
  | nil => rfl
  | cons p more =>
    obtain ⟨k, v⟩ := p
    obtain ⟨X, hX⟩ := serEnvFields_cons_shape k v more
    have hcs : serEnv ((k, v) :: more) ++ rest =
        '\x7b' :: (serEnvFields ((k, v) :: more) ++ '\x7d' :: rest) := by
      show ('\x7b' :: (serEnvFields ((k, v) :: more) ++ ['\x7d'])) ++ rest = _
      simp [List.append_assoc]
    have hhead : serEnvFields ((k, v) :: more) ++ '\x7d' :: rest =
        '"' :: (escList k.toList ++ '"' :: (X ++ '\x7d' :: rest)) := by
      rw [hX, List.append_assoc, serStr_head]
    rw [hcs]
    show (match serEnvFields ((k, v) :: more) ++ '\x7d' :: rest with
      | d :: rest' =>
        if d = '\x7d' then some ([], rest') else parseEnvFields fuel (d :: rest')
      | [] => none) = some ((k, v) :: more, rest)
    rw [hhead]
    show (if '"' = '\x7d' then some ([], escList k.toList ++ '"' :: (X ++ '\x7d' :: rest))
      else parseEnvFields fuel ('"' :: (escList k.toList ++ '"' :: (X ++ '\x7d' :: rest)))) =
      some ((k, v) :: more, rest)
    rw [if_neg (by decide), ← hhead]
    exact parseEnvFields_round ((k, v) :: more) rest fuel h (by simp)

end BunPaaS.Sites
namespace BunPaaS.Sites
theorem serEnv_length (env : List (String × String)) :
    env.length + 2 ≤ (serEnv env).length := by
  have h := serEnvFields_length env
  show env.length + 2 ≤ ('\x7b' :: (serEnvFields env ++ ['\x7d'])).length
  simp only [List.length_cons, List.length_append, List.length_singleton]
  omega

theorem parseEnvObj_at_length (env : List (String × String)) (tail : List Char) :
    parseEnvObj (serEnv env ++ tail).length (serEnv env ++ tail) = some (env, tail) := by
  apply parseEnvObj_round
  have h := serEnv_length env
  rw [List.length_append]
  omega

theorem option_map_toList_mk (o : Option String) :
    (o.map String.toList).map String.mk = o := by
  cases o <;> rfl

theorem parseSite_round (s : BunPaaS.Site) (rest : List Char) :
    parseSite (serSite s ++ rest) = some (s, rest) := by
  have hcs : serSite s ++ rest =
      "\x7b\"enabled\":".toList ++ (serBool s.enabled ++
      (",\"deployKey\":".toList ++ (serStr s.deployKey ++
      (",\"env\":".toList ++ (serEnv s.env ++
      (",\"created\":".toList ++ (serOptStr s.created ++
      (",\"lastDeploy\":".toList ++ (serOptStr s.lastDeploy ++
      ('\x7d' :: rest)))))))))) := by
    simp [serSite, List.append_assoc]
  rw [parseSite.eq_def, hcs]
  rw [expectPrefix_round, Option.some_bind]
  rw [parseBool_round, Option.some_bind]
  rw [expectPrefix_round, Option.some_bind]
  rw [parseJString_at_length, Option.some_bind]
  rw [expectPrefix_round, Option.some_bind]
  rw [parseEnvObj_at_length, Option.some_bind]
  rw [expectPrefix_round, Option.some_bind]
  rw [parseStrOrNull_at_length, Option.some_bind]
  rw [expectPrefix_round, Option.some_bind]
  rw [parseStrOrNull_at_length, Option.some_bind]
  show (if '\x7d' = '\x7d' then
      some ({ enabled := s.enabled, deployKey := String.mk s.deployKey.toList,
              env := s.env, created := (s.created.map String.toList).map String.mk,
              lastDeploy := (s.lastDeploy.map String.toList).map String.mk }, rest)
    else none) = some (s, rest)
  rw [if_pos rfl, BunPaaS.Redirects.string_mk_toList, option_map_toList_mk, option_map_toList_mk]

end BunPaaS.Sites
namespace BunPaaS.Sites

theorem serSitesFields_length (sites : List (String × BunPaaS.Site)) :
    sites.length ≤ (serSitesFields sites).length := by
  induction sites with
  | nil => simp [serSitesFields]
  | cons p more ih =>
    obtain ⟨h, s⟩ := p
    have h1 := serStr_length h
    cases more with
    | nil =>
      rw [serSitesFields]
      simp only [List.length_cons, List.length_nil, List.length_append]
      omega
    | cons q more2 =>
      rw [serSitesFields]
      · simp only [List.length_cons, List.length_append] at ih ⊢
        omega
      · intro hq
        exact List.noConfusion hq

theorem parseSitesFields_round (sites : List (String × BunPaaS.Site)) (rest : List Char) :
    ∀ fuel, sites.length < fuel → sites ≠ [] →
      parseSitesFields fuel (serSitesFields sites ++ '\x7d' :: rest) =
        some (sites, rest) := by
  induction sites with
  | nil => intro fuel _ hne; exact absurd rfl hne
  | cons p more ih =>
    intro fuel hf _
    obtain ⟨h, s⟩ := p
    cases fuel with
    | zero => omega
    | succ m =>
      cases more with
      | nil =>
        have hcs : serSitesFields [(h, s)] ++ '\x7d' :: rest =
            serStr h ++ (':' :: (serSite s ++ '\x7d' :: rest)) := by
          rw [serSitesFields]
          simp [List.append_assoc]
        rw [hcs, parseSitesFields, parseJString_at_length, Option.some_bind]
        show ((parseSite (serSite s ++ '\x7d' :: rest)).bind fun p2 =>
          match p2.2 with
          | ',' :: cs4 =>
            match parseSitesFields m cs4 with
            | some (fs, r2) => some ((String.mk h.toList, p2.1) :: fs, r2)
            | none => none
          | d :: cs4 =>
            if d = '\x7d' then some ([(String.mk h.toList, p2.1)], cs4) else none
          | [] => none) = some ([(h, s)], rest)
        rw [parseSite_round, Option.some_bind]
        show (if '\x7d' = '\x7d' then some ([(String.mk h.toList, s)], rest) else none) =
          some ([(h, s)], rest)
        rw [if_pos rfl, BunPaaS.Redirects.string_mk_toList]
      | cons q more2 =>
        have hcs : serSitesFields ((h, s) :: q :: more2) ++ '\x7d' :: rest =
            serStr h ++ (':' :: (serSite s ++ (',' ::
              (serSitesFields (q :: more2) ++ '\x7d' :: rest)))) := by
          rw [serSitesFields]
          · simp [List.append_assoc]
          · intro hq
            exact List.noConfusion hq
        rw [hcs, parseSitesFields, parseJString_at_length, Option.some_bind]
        show ((parseSite (serSite s ++ (',' ::
            (serSitesFields (q :: more2) ++ '\x7d' :: rest)))).bind fun p2 =>
          match p2.2 with
          | ',' :: cs4 =>
            match parseSitesFields m cs4 with
            | some (fs, r2) => some ((String.mk h.toList, p2.1) :: fs, r2)
            | none => none
          | d :: cs4 =>
            if d = '\x7d' then some ([(String.mk h.toList, p2.1)], cs4) else none
          | [] => none) = some ((h, s) :: q :: more2, rest)
        rw [parseSite_round, Option.some_bind]
        show (match parseSitesFields m (serSitesFields (q :: more2) ++ '\x7d' :: rest) with
          | some (fs, r2) => some ((String.mk h.toList, s) :: fs, r2)
          | none => none) = some ((h, s) :: q :: more2, rest)
        rw [ih m (by simp at hf ⊢; omega) (by simp), BunPaaS.Redirects.string_mk_toList]

end BunPaaS.Sites
namespace BunPaaS.Sites

/-- The codec round trip: parsing back a serialized registry document
returns exactly the document. -/
theorem parseRegistry_serRegistry (d : RegistryData) :
    parseRegistry (serRegistry d) = some d := by
  obtain ⟨sites⟩ := d
  cases sites with
  | nil => decide
  | cons p more =>
    obtain ⟨h, s⟩ := p
    have hcs : (serRegistry { sites := (h, s) :: more }).toList =
        "\x7b\"sites\":\x7b".toList ++
          (serSitesFields ((h, s) :: more) ++ '\x7d' :: ['\x7d']) := by
      show "\x7b\"sites\":\x7b".toList ++ serSitesFields ((h, s) :: more) ++
        ['\x7d', '\x7d'] = _
      simp [List.append_assoc]
    have hshape : ∃ X, serSitesFields ((h, s) :: more) = serStr h ++ X := by
      cases more with
      | nil =>
        refine ⟨':' :: serSite s, ?_⟩
        rw [serSitesFields]
      | cons q more2 =>
        refine ⟨':' :: (serSite s ++ ',' :: serSitesFields (q :: more2)), ?_⟩
        rw [serSitesFields]
        · simp [List.append_assoc]
        · intro hq
          exact List.noConfusion hq
    obtain ⟨X, hX⟩ := hshape
    have hhead : serSitesFields ((h, s) :: more) ++ '\x7d' :: ['\x7d'] =
        '"' :: (escList h.toList ++ '"' :: (X ++ '\x7d' :: ['\x7d'])) := by
      rw [hX, List.append_assoc, serStr_head]
    rw [parseRegistry.eq_def, hcs, expectPrefix_round]
    rw [hhead]
    show (if '"' = '\x7d' then
        match escList h.toList ++ '"' :: (X ++ '\x7d' :: ['\x7d']) with
        | [e] => if e = '\x7d' then some (RegistryData.mk []) else none
        | _ => none
      else
        match parseSitesFields
            ('"' :: (escList h.toList ++ '"' :: (X ++ '\x7d' :: ['\x7d']))).length
            ('"' :: (escList h.toList ++ '"' :: (X ++ '\x7d' :: ['\x7d']))) with
        | some (sites2, rest) =>
          match rest with
          | [e] => if e = '\x7d' then some (RegistryData.mk sites2) else none
          | _ => none
        | none => none) = some (RegistryData.mk ((h, s) :: more))
    rw [if_neg (by decide), ← hhead]
    have hlen : ((h, s) :: more).length <
        (serSitesFields ((h, s) :: more) ++ '\x7d' :: ['\x7d']).length := by
      have h1 := serSitesFields_length ((h, s) :: more)
      rw [List.length_append]
      simp only [List.length_cons] at h1 ⊢
      omega
    rw [parseSitesFields_round ((h, s) :: more) ['\x7d'] _ hlen (by simp)]
    show (if '\x7d' = '\x7d' then some (RegistryData.mk ((h, s) :: more)) else none) =
      some (RegistryData.mk ((h, s) :: more))
    rw [if_pos rfl]

end BunPaaS.Sites

namespace BunPaaS.Sites

/-- A file on disk: its content and its stat mtime. -/
structure FileData where
  content : String
  mtimeMs : Nat
  deriving DecidableEq, Repr

/-- The sites.js module state: the `sites.json` cache pair and the
filesystem visible to it. -/
structure SitesModuleState where
  sitesCache : Option RegistryData := none
  sitesCacheMtime : Nat := 0
  files : List (String × FileData) := []
  deriving Repr

def getSitesPath (dataDir : String) : String :=
  BunPaaS.Static.pathJoin dataDir "sites.json"

/-- `saveSites(dataDir, data)`: write `JSON.stringify(data)` to the temp
file, atomically rename it over `sites.json`, and refresh the cache
(`newMtime` is the mtime the write gives the file). -/
def saveSites (st : SitesModuleState) (dataDir : String) (data : RegistryData)
    (newMtime : Nat) : SitesModuleState :=
  let sitesPath := getSitesPath dataDir
  let tempPath := sitesPath ++ ".tmp"
  let fd : FileData := { content := serRegistry data, mtimeMs := newMtime }
  let files1 := BunPaaS.setAssoc st.files tempPath fd
  let files2 := BunPaaS.setAssoc (BunPaaS.removeAssoc files1 tempPath) sitesPath fd
  { st with files := files2, sitesCache := some data }

/-- `invalidateSitesCache()`. -/
def invalidateSitesCache (st : SitesModuleState) : SitesModuleState :=
  { st with sitesCache := none, sitesCacheMtime := 0 }

/-- `loadSites(dataDir)`: production trusts a populated cache outright; dev
re-reads unless the stat mtime matches; a missing file yields the empty
registry (uncached); a file that fails to parse rethrows (`.error`). -/
def loadSites (isDev : Bool) (st : SitesModuleState) (dataDir : String) :
    Except Unit (RegistryData × SitesModuleState) :=
  match st.sitesCache, isDev with
  | some c, false => .ok (c, st)
  | cache, dv =>
    match BunPaaS.lookupAssoc st.files (getSitesPath dataDir) with
    | none => .ok ({ sites := [] }, st)
    | some fd =>
      let useCache : Option RegistryData :=
        match cache, dv with
        | some c, true => if st.sitesCacheMtime = fd.mtimeMs then some c else none
        | _, _ => none
      match useCache with
      | some c => .ok (c, st)
      | none =>
        match parseRegistry fd.content with
        | some data =>
          .ok (data, { st with sitesCache := some data,
                               sitesCacheMtime := if dv then fd.mtimeMs else st.sitesCacheMtime })
        | none => .error ()

end BunPaaS.Sites

namespace BunPaaS

open BunPaaS.Sites in
/-- Claim C8 (confirmed): for every registry data value, in both runtime
modes and from any prior module state, `saveSites` followed by
`invalidateSitesCache` followed by `loadSites` yields data equal to what
was saved — the serialized site entry is read back identically. -/
theorem C8_registry_round_trip (isDev : Bool) (st : SitesModuleState)
    (dataDir : String) (data : RegistryData) (newMtime : Nat) :
    (loadSites isDev (invalidateSitesCache (saveSites st dataDir data newMtime))
        dataDir).toOption.map Prod.fst = some data := by
  have hfile : lookupAssoc
      (invalidateSitesCache (saveSites st dataDir data newMtime)).files
      (getSitesPath dataDir) =
      some { content := serRegistry data, mtimeMs := newMtime } := by
    show lookupAssoc (setAssoc _ (getSitesPath dataDir) _) (getSitesPath dataDir) = _
    exact lookup_setAssoc_self _ _ _
  have hcache : (invalidateSitesCache (saveSites st dataDir data newMtime)).sitesCache =
      none := rfl
  cases isDev with
  | false =>
    rw [loadSites.eq_def]
    rw [hcache]
    rw [hfile]
    show (match parseRegistry (serRegistry data) with
      | some d =>
        Except.ok (d, { invalidateSitesCache (saveSites st dataDir data newMtime) with
          sitesCache := some d,
          sitesCacheMtime :=
            if false then newMtime
            else (invalidateSitesCache (saveSites st dataDir data newMtime)).sitesCacheMtime })
      | none =>
        (Except.error () : Except Unit (RegistryData × SitesModuleState))).toOption.map
        Prod.fst = some data
    rw [parseRegistry_serRegistry]
    rfl
  | true =>
    rw [loadSites.eq_def]
    rw [hcache]
    rw [hfile]
    show (match parseRegistry (serRegistry data) with
      | some d =>
        Except.ok (d, { invalidateSitesCache (saveSites st dataDir data newMtime) with
          sitesCache := some d,
          sitesCacheMtime :=
            if true then newMtime
            else (invalidateSitesCache (saveSites st dataDir data newMtime)).sitesCacheMtime })
      | none =>
        (Except.error () : Except Unit (RegistryData × SitesModuleState))).toOption.map
        Prod.fst = some data
    rw [parseRegistry_serRegistry]
    rfl

end BunPaaS
